import Mathlib

/-!
Verification of the Airtable publish/draft state machine of the
multisource-starter repository.

The embedding models `airtable-api-client` (the `AirtableApiClient` class and
`convertAirtableRecordToStatefulRecord`), the Stackbit document conversion
(`STATUS_MAP` / `convertAirtableRecordsToStackbitDocuments`) and the
`deletedDocumentIds` computation of `AirtableContentSource.deleteDocument`.

The Airtable base is modelled as a list of raw rows (`Store`).  Each row has a
backend id, a created time and a field set holding the reserved `State` column,
the reserved `Related` link column and the user columns.  JavaScript `undefined`
values (an absent `Related` column, the result of the unguarded `Related![0]`
dereference on an empty link list) are modelled with `Option`; thrown errors of
the mutation methods are modelled with `Except ApiError`.  The recursive
single-record read is modelled with explicit fuel, since on malformed stores the
source recursion is unbounded.
-/

namespace Multisource

/-- The field set of one Airtable row: the reserved `State` column, the
reserved `Related` link column (`none` models an absent column) and the user
columns as an association list of column name and value. -/
structure FieldSet where
  state : String
  related : Option (List String)
  user : List (String × String)
deriving Repr, DecidableEq

/-- One raw Airtable row, as returned by the Airtable API. -/
structure AirtableRecord where
  id : String
  createdTime : String
  fields : FieldSet
deriving Repr, DecidableEq

/-- The Airtable base: a flat list of rows (insertion order). -/
abbrev Store := List AirtableRecord

/-- The `Related![0]` dereference of the source: first element of the link
column.  `none` models JavaScript `undefined` (absent column or empty list). -/
def relatedFirst (f : FieldSet) : Option String :=
  f.related.bind List.head?

/-- The externally visible stateful record produced by
`convertAirtableRecordToStatefulRecord`.  `changedRecordId` is `none` for the
plain statuses, mirroring the discriminated union of the source. -/
structure StatefulRecord where
  id : String
  createdTime : String
  status : String
  changedRecordId : Option String
  fields : FieldSet
deriving Repr, DecidableEq

/-- Embeds `convertAirtableRecordToStatefulRecord` (airtable-api-client).
A record in `changed` state takes its counterpart id (`Related![0]`) as the
external id and carries its own id as `changedRecordId`; a record in
`published-has-changes` state keeps its own id and carries `Related![0]` as
`changedRecordId`; every other record keeps its own id and raw status.  The
source dereferences `Related![0]` without a guard; `none` models the resulting
undefined id (or thrown TypeError) when the link column is absent or empty. -/
def convertAirtableRecordToStatefulRecord (r : AirtableRecord) : Option StatefulRecord :=
  if r.fields.state = "changed" then
    (relatedFirst r.fields).map (fun extId =>
      { id := extId, createdTime := r.createdTime, status := "changed",
        changedRecordId := some r.id, fields := r.fields })
  else if r.fields.state = "published-has-changes" then
    (relatedFirst r.fields).map (fun shadowId =>
      { id := r.id, createdTime := r.createdTime, status := "published-has-changes",
        changedRecordId := some shadowId, fields := r.fields })
  else
    some { id := r.id, createdTime := r.createdTime, status := r.fields.state,
           changedRecordId := none, fields := r.fields }

/-- Lookup of a row by backend id (`table.find`). -/
def findById (store : Store) (recordId : String) : Option AirtableRecord :=
  store.find? (fun r => r.id == recordId)

/-- A partial update payload (`Partial<Fields>` in the source): each reserved
column is `none` when the key is absent from the payload. -/
structure PartialFields where
  state : Option String
  related : Option (List String)
  user : List (String × String)
deriving Repr, DecidableEq

/-- Setting one user column (JavaScript object key assignment). -/
def setUserField (fs : List (String × String)) (k v : String) : List (String × String) :=
  if fs.any (fun kv => kv.1 == k) then
    fs.map (fun kv => if kv.1 = k then (k, v) else kv)
  else fs ++ [(k, v)]

/-- Merge semantics of a JavaScript spread / Airtable PATCH update on the user
columns: keys of the payload override, other keys are kept. -/
def mergeUser (fs upd : List (String × String)) : List (String × String) :=
  upd.foldl (fun acc kv => setUserField acc kv.1 kv.2) fs

/-- Applying a partial update payload to a field set (Airtable `update`:
top-level fields present in the payload are replaced, others kept). -/
def applyUpdate (f : FieldSet) (p : PartialFields) : FieldSet :=
  { state := p.state.getD f.state,
    related := match p.related with | some r => some r | none => f.related,
    user := mergeUser f.user p.user }

/-- Airtable `update(recordId, payload)`: patch the row with that id. -/
def baseUpdate (store : Store) (recordId : String) (p : PartialFields) : Store :=
  store.map (fun r => if r.id = recordId then { r with fields := applyUpdate r.fields p } else r)

/-- Airtable `replace(recordId, fields)`: replace the row's fields wholesale. -/
def baseReplace (store : Store) (recordId : String) (f : FieldSet) : Store :=
  store.map (fun r => if r.id = recordId then { r with fields := f } else r)

/-- Airtable `destroy(recordId)`: physically remove the row. -/
def baseDestroy (store : Store) (recordId : String) : Store :=
  store.filter (fun r => !(r.id == recordId))

/-- Airtable `create(fields)`: append a new row with a backend-assigned id
(passed explicitly here as `newId`). -/
def baseCreate (store : Store) (newId : String) (f : FieldSet) : Store × AirtableRecord :=
  let r : AirtableRecord := { id := newId, createdTime := "", fields := f }
  (store ++ [r], r)

/-- Error classes thrown by the mutation methods of `AirtableApiClient`:
a not-found rejection, or the explicit invalid-transition throw carrying the
operation and the offending status as its descriptive reason. -/
inductive ApiError where
  | notFound (recordId : String)
  | invalidTransition (operation : String) (status : String)
deriving Repr, DecidableEq

/-- Embeds `AirtableApiClient.getStatefulRecordById`.  Branches on the raw
`State`: `draft` only in preview; `changed` in preview, otherwise resolve
`Related![0]`; `published` always; `published-has-changes` resolves
`Related![0]` in preview, otherwise itself; `published-to-be-deleted` only under
`includeToBeDeleted`; `deleted` (and any unrecognized status, for which the
source switch falls through to `undefined`) is a miss.  The recursive calls of
the source pass only `preview`, so `includeToBeDeleted` resets to `false`.
Fuel exhaustion returns a miss; the source recursion is unbounded but under the
shadow-pairing invariant a fuel of 2 is never exhausted. -/
def getStatefulRecordById : Nat → Store → String → Bool → Bool → Option StatefulRecord
  | 0, _, _, _, _ => none
  | Nat.succ fuel, store, recordId, preview, includeToBeDeleted =>
    match findById store recordId with
    | none => none
    | some record =>
      if record.fields.state = "draft" then
        (if preview then convertAirtableRecordToStatefulRecord record else none)
      else if record.fields.state = "changed" then
        (if preview then convertAirtableRecordToStatefulRecord record
         else
           match relatedFirst record.fields with
           | none => none
           | some rid => getStatefulRecordById fuel store rid preview false)
      else if record.fields.state = "published" then
        convertAirtableRecordToStatefulRecord record
      else if record.fields.state = "published-has-changes" then
        (if preview then
           match relatedFirst record.fields with
           | none => none
           | some rid => getStatefulRecordById fuel store rid preview false
         else convertAirtableRecordToStatefulRecord record)
      else if record.fields.state = "published-to-be-deleted" then
        (if includeToBeDeleted then convertAirtableRecordToStatefulRecord record else none)
      else if record.fields.state = "deleted" then none
      else none

/-- The preview status filter of `getStatefulRecordsForTable`. -/
def previewStatusList (includeToBeDeleted : Bool) : List String :=
  ["draft", "changed", "published"] ++ (if includeToBeDeleted then ["published-to-be-deleted"] else [])

/-- The production status filter of `getStatefulRecordsForTable`. -/
def productionStatusList : List String :=
  ["published", "published-has-changes", "published-to-be-deleted"]

/-- Embeds the filtering and mapping of `getStatefulRecordsForTable` (bulk
read): keep the rows whose status passes the visibility filter for the mode and
convert each one. -/
def getStatefulRecordsForTable (store : Store) (preview includeToBeDeleted : Bool) :
    List (Option StatefulRecord) :=
  (store.filter (fun r =>
    if preview then (previewStatusList includeToBeDeleted).contains r.fields.state
    else productionStatusList.contains r.fields.state)).map
    convertAirtableRecordToStatefulRecord

/-- Embeds `AirtableApiClient.createRecord`: default the `State` column to
`draft` when the payload has no `State` key, create the row, return the
converted record. -/
def createRecord (store : Store) (newId : String) (p : PartialFields) :
    Store × Option StatefulRecord :=
  let f : FieldSet := { state := p.state.getD "draft", related := p.related, user := p.user }
  let (store2, r) := baseCreate store newId f
  (store2, convertAirtableRecordToStatefulRecord r)

/-- Embeds `AirtableApiClient.updateRecord`.  Resolves the record with
`preview = true`; on `published` creates the `changed` shadow (a copy of the
current fields merged with the edits, `Related = [own id]`, `State = changed`)
and flips the original to `published-has-changes` pointing at the shadow; on
`draft` updates in place; on `changed` updates the shadow row
(`changedRecordId`) in place; any other resolved status throws the
invalid-transition error.  `freshId` is the backend-assigned id of the created
shadow.  The `notFound` results on the inner matches model Airtable API
rejections of calls on an absent id (unreachable in the resolved flows). -/
def updateRecord (fuel : Nat) (store : Store) (freshId recordId : String) (upd : PartialFields) :
    Except ApiError (Store × Option StatefulRecord) :=
  match getStatefulRecordById fuel store recordId true false with
  | none => .error (.notFound recordId)
  | some record =>
    if record.status = "published" then
      let (store2, changedRecord) := createRecord store freshId
        { state := some "changed", related := some [record.id],
          user := mergeUser record.fields.user upd.user }
      match changedRecord with
      | some cr =>
        match cr.changedRecordId with
        | some cid =>
          .ok (baseUpdate store2 record.id
                { state := some "published-has-changes", related := some [cid], user := [] },
              some cr)
        | none => .error (.notFound recordId)
      | none => .error (.notFound recordId)
    else if record.status = "draft" then
      match findById store record.id with
      | none => .error (.notFound record.id)
      | some raw =>
        .ok (baseUpdate store record.id upd,
             convertAirtableRecordToStatefulRecord { raw with fields := applyUpdate raw.fields upd })
    else if record.status = "changed" then
      match record.changedRecordId with
      | none => .error (.notFound recordId)
      | some cid =>
        match findById store cid with
        | none => .error (.notFound cid)
        | some raw =>
          .ok (baseUpdate store cid upd,
               convertAirtableRecordToStatefulRecord { raw with fields := applyUpdate raw.fields upd })
    else .error (.invalidTransition "update" record.status)

/-- Embeds `AirtableApiClient.deleteRecord`.  Resolves the record with
`preview = true`; on `published` and on `draft` patches the `State` of the row
at `recordId` (to the literal strings `published-deleted` and `deleted` written
by the source); on `changed` patches the published counterpart (`record.id`)
to `published-deleted` and destroys the shadow row; any other resolved status
throws the invalid-transition error. -/
def deleteRecord (fuel : Nat) (store : Store) (recordId : String) : Except ApiError Store :=
  match getStatefulRecordById fuel store recordId true false with
  | none => .error (.notFound recordId)
  | some record =>
    if record.status = "published" then
      .ok (baseUpdate store recordId { state := some "published-deleted", related := none, user := [] })
    else if record.status = "draft" then
      .ok (baseUpdate store recordId { state := some "deleted", related := none, user := [] })
    else if record.status = "changed" then
      match record.changedRecordId with
      | none => .error (.notFound recordId)
      | some cid =>
        .ok (baseDestroy
              (baseUpdate store record.id { state := some "published-deleted", related := none, user := [] })
              cid)
    else .error (.invalidTransition "delete" record.status)

/-- One reference of `AirtableApiClient.publishRecords`: resolve with
`preview = true` and `includeToBeDeleted = true`; on `draft` set
`State = published`; on `changed` replace the published counterpart's fields
wholesale with the shadow's fields (`State = published`, `Related = []`) and
destroy the shadow; on `published-to-be-deleted` set `State = deleted` and
report the id as deleted; any other resolved status throws the
invalid-transition error.  Returns the new store, the converted published
records and the deleted record ids. -/
def publishOne (fuel : Nat) (store : Store) (recordId : String) :
    Except ApiError (Store × List (Option StatefulRecord) × List String) :=
  match getStatefulRecordById fuel store recordId true true with
  | none => .error (.notFound recordId)
  | some record =>
    if record.status = "draft" then
      match findById store record.id with
      | none => .error (.notFound record.id)
      | some raw =>
        let p : PartialFields := { state := some "published", related := none, user := [] }
        .ok (baseUpdate store record.id p,
             [convertAirtableRecordToStatefulRecord { raw with fields := applyUpdate raw.fields p }],
             [])
    else if record.status = "changed" then
      match findById store record.id with
      | none => .error (.notFound record.id)
      | some raw =>
        let f : FieldSet := { state := "published", related := some [], user := record.fields.user }
        match record.changedRecordId with
        | none => .error (.notFound recordId)
        | some cid =>
          .ok (baseDestroy (baseReplace store record.id f) cid,
               [convertAirtableRecordToStatefulRecord { raw with fields := f }],
               [])
    else if record.status = "published-to-be-deleted" then
      .ok (baseUpdate store record.id { state := some "deleted", related := none, user := [] },
           [], [record.id])
    else .error (.invalidTransition "publish" record.status)

/-- Embeds `AirtableApiClient.publishRecords`: process the references
sequentially, accumulating published records and deleted ids; the first failing
reference aborts the batch. -/
def publishRecords (fuel : Nat) (store : Store) (recordIds : List String) :
    Except ApiError (Store × List (Option StatefulRecord) × List String) :=
  match recordIds with
  | [] => .ok (store, [], [])
  | recordId :: rest =>
    match publishOne fuel store recordId with
    | .error e => .error e
    | .ok (store2, pubs, dels) =>
      match publishRecords fuel store2 rest with
      | .error e => .error e
      | .ok (store3, pubs2, dels2) => .ok (store3, pubs ++ pubs2, dels ++ dels2)

/-- Embeds the `STATUS_MAP` constant of the Airtable content source utilities
(`airtable-utils`), which uses the `Status` column vocabulary
(`published-changed` and `published-deleted` for the counterpart and
marked-for-deletion states). -/
def sTATUS_MAP : List (String × String) :=
  [("draft", "added"), ("changed", "modified"), ("deleted", "deleted"),
   ("published", "published"), ("published-changed", "published"),
   ("published-deleted", "deleted")]

/-- The document status computation of `convertAirtableRecordsToStackbitDocuments`:
look the raw status up in `STATUS_MAP`, defaulting to `added` for any status
that is not a key of the map. -/
def documentStatus (status : String) : String :=
  match sTATUS_MAP.find? (fun kv => kv.1 == status) with
  | some kv => kv.2
  | none => "added"

/-- The identity-relevant part of a Stackbit document produced by
`convertAirtableRecordsToStackbitDocuments`: the external id (`none` models the
undefined value produced by the unguarded `Related![0]` on a `changed` record
with an absent or empty link column), the mapped status and the raw record id
carried in `context.id`. -/
structure StackbitDocument where
  id : Option String
  status : String
  contextId : String
deriving Repr, DecidableEq

/-- Embeds the id, status and context computation of one document in
`convertAirtableRecordsToStackbitDocuments`. -/
def convertAirtableRecordToStackbitDocument (r : AirtableRecord) : StackbitDocument :=
  { id := if r.fields.state = "changed" then relatedFirst r.fields else some r.id,
    status := documentStatus r.fields.state,
    contextId := r.id }

/-- Embeds the `deletedDocumentIds` computation of
`AirtableContentSource.deleteDocument`: a `published` or `draft` document
reports its own id; a `changed` document reports its raw record id
(`context.id`) and the counterpart id (the `Related` reference); any other
status reports nothing. -/
def deleteDocumentDeletedIds (docStatus documentId contextId relatedRefId : String) : List String :=
  if docStatus = "published" then [documentId]
  else if docStatus = "draft" then [documentId]
  else if docStatus = "changed" then [contextId, relatedRefId]
  else []

/-- The ids of the rows of a store. -/
def storeIds (store : Store) : List String :=
  store.map (fun r => r.id)

/-- The shadow-pairing invariant of the specification: every `changed` record
is linked to a `published-has-changes` record that links back, and vice versa,
and row ids are unique. -/
def wellFormed (store : Store) : Prop :=
  (storeIds store).Nodup
  ∧ (∀ c ∈ store, c.fields.state = "changed" →
      ∃ p ∈ store, relatedFirst c.fields = some p.id
        ∧ p.fields.state = "published-has-changes" ∧ relatedFirst p.fields = some c.id)
  ∧ (∀ p ∈ store, p.fields.state = "published-has-changes" →
      ∃ c ∈ store, relatedFirst p.fields = some c.id
        ∧ c.fields.state = "changed" ∧ relatedFirst c.fields = some p.id)

instance (store : Store) : Decidable (wellFormed store) := by
  unfold wellFormed
  infer_instance

instance {ε α : Type} [DecidableEq ε] [DecidableEq α] : DecidableEq (Except ε α) := fun x y =>
  match x, y with
  | .ok a, .ok b => decidable_of_iff (a = b) (by simp)
  | .error a, .error b => decidable_of_iff (a = b) (by simp)
  | .ok _, .error _ => isFalse (by simp)
  | .error _, .ok _ => isFalse (by simp)

/-! ### Basic facts about the converter -/

theorem convert_state_changed {r : AirtableRecord} (h : r.fields.state = "changed") :
    convertAirtableRecordToStatefulRecord r = (relatedFirst r.fields).map (fun extId =>
      { id := extId, createdTime := r.createdTime, status := "changed",
        changedRecordId := some r.id, fields := r.fields }) := by
  unfold convertAirtableRecordToStatefulRecord
  rw [h]
  simp

theorem convert_state_phc {r : AirtableRecord} (h : r.fields.state = "published-has-changes") :
    convertAirtableRecordToStatefulRecord r = (relatedFirst r.fields).map (fun shadowId =>
      { id := r.id, createdTime := r.createdTime, status := "published-has-changes",
        changedRecordId := some shadowId, fields := r.fields }) := by
  unfold convertAirtableRecordToStatefulRecord
  rw [h]
  simp

theorem convert_state_other {r : AirtableRecord} (h1 : r.fields.state ≠ "changed")
    (h2 : r.fields.state ≠ "published-has-changes") :
    convertAirtableRecordToStatefulRecord r =
      some { id := r.id, createdTime := r.createdTime, status := r.fields.state,
             changedRecordId := none, fields := r.fields } := by
  unfold convertAirtableRecordToStatefulRecord
  rw [if_neg h1, if_neg h2]

theorem convert_some_status {r : AirtableRecord} {sr : StatefulRecord}
    (h : convertAirtableRecordToStatefulRecord r = some sr) : sr.status = r.fields.state := by
  by_cases h1 : r.fields.state = "changed"
  · rw [convert_state_changed h1] at h
    rcases Option.map_eq_some'.mp h with ⟨x, _, hsr⟩
    rw [← hsr, h1]
  · by_cases h2 : r.fields.state = "published-has-changes"
    · rw [convert_state_phc h2] at h
      rcases Option.map_eq_some'.mp h with ⟨x, _, hsr⟩
      rw [← hsr, h2]
    · rw [convert_state_other h1 h2] at h
      cases h
      rfl

theorem convert_some_fields {r : AirtableRecord} {sr : StatefulRecord}
    (h : convertAirtableRecordToStatefulRecord r = some sr) : sr.fields = r.fields := by
  by_cases h1 : r.fields.state = "changed"
  · rw [convert_state_changed h1] at h
    rcases Option.map_eq_some'.mp h with ⟨x, _, hsr⟩
    rw [← hsr]
  · by_cases h2 : r.fields.state = "published-has-changes"
    · rw [convert_state_phc h2] at h
      rcases Option.map_eq_some'.mp h with ⟨x, _, hsr⟩
      rw [← hsr]
    · rw [convert_state_other h1 h2] at h
      cases h
      rfl

theorem convert_changed_struct {r : AirtableRecord} {sr : StatefulRecord}
    (h : convertAirtableRecordToStatefulRecord r = some sr) (hs : sr.status = "changed") :
    r.fields.state = "changed" ∧ relatedFirst r.fields = some sr.id
      ∧ sr.changedRecordId = some r.id ∧ sr.fields = r.fields
      ∧ sr.createdTime = r.createdTime := by
  have hst : r.fields.state = "changed" := by rw [← convert_some_status h, hs]
  rw [convert_state_changed hst] at h
  rcases Option.map_eq_some'.mp h with ⟨x, hx, hsr⟩
  refine ⟨hst, ?_, ?_, ?_, ?_⟩ <;> (rw [← hsr]; try simp [hx])

theorem convert_phc_struct {r : AirtableRecord} {sr : StatefulRecord}
    (h : convertAirtableRecordToStatefulRecord r = some sr)
    (hs : sr.status = "published-has-changes") :
    r.fields.state = "published-has-changes" ∧ sr.id = r.id
      ∧ relatedFirst r.fields = sr.changedRecordId ∧ sr.fields = r.fields := by
  have hst : r.fields.state = "published-has-changes" := by rw [← convert_some_status h, hs]
  rw [convert_state_phc hst] at h
  rcases Option.map_eq_some'.mp h with ⟨x, hx, hsr⟩
  refine ⟨hst, ?_, ?_, ?_⟩ <;> (rw [← hsr]; try simp [hx])

theorem convert_plain_struct {r : AirtableRecord} {sr : StatefulRecord}
    (h : convertAirtableRecordToStatefulRecord r = some sr) (h1 : sr.status ≠ "changed")
    (h2 : sr.status ≠ "published-has-changes") :
    sr = { id := r.id, createdTime := r.createdTime, status := r.fields.state,
           changedRecordId := none, fields := r.fields } := by
  have hs := convert_some_status h
  rw [convert_state_other (by rw [← hs]; exact h1) (by rw [← hs]; exact h2)] at h
  exact (Option.some.injEq _ _ ▸ h.symm)

/-! ### Basic facts about lookup -/

theorem findById_eq_some {store : Store} {recordId : String} {r : AirtableRecord}
    (h : findById store recordId = some r) : r ∈ store ∧ r.id = recordId := by
  unfold findById at h
  refine ⟨List.mem_of_find?_eq_some h, ?_⟩
  have := List.find?_some h
  simpa using this

theorem findById_eq_none {store : Store} {recordId : String}
    (h : findById store recordId = none) : ∀ r ∈ store, r.id ≠ recordId := by
  intro r hr
  unfold findById at h
  have := List.find?_eq_none.mp h r hr
  simpa using this

theorem mem_id_inj {store : Store} (hnd : (storeIds store).Nodup) {a b : AirtableRecord}
    (ha : a ∈ store) (hb : b ∈ store) (hid : a.id = b.id) : a = b :=
  List.inj_on_of_nodup_map hnd ha hb hid

theorem findById_self {store : Store} (hnd : (storeIds store).Nodup) {r : AirtableRecord}
    (hmem : r ∈ store) : findById store r.id = some r := by
  induction store with
  | nil => cases hmem
  | cons a l ih =>
    have hnd2 : (storeIds l).Nodup := (List.nodup_cons.mp hnd).2
    have hanotin : a.id ∉ storeIds l := (List.nodup_cons.mp hnd).1
    rcases List.mem_cons.mp hmem with rfl | hmem2
    · simp [findById, List.find?]
    · have hne : a.id ≠ r.id := by
        intro hcontra
        exact hanotin (hcontra ▸ List.mem_map_of_mem (fun x => x.id) hmem2)
      have hbeq : (a.id == r.id) = false := by simpa using hne
      have : findById l r.id = some r := ih hnd2 hmem2
      simpa [findById, List.find?, hbeq] using this

theorem findById_map_idPreserving {g : AirtableRecord → AirtableRecord}
    (hg : ∀ r, (g r).id = r.id) (store : Store) (recordId : String) :
    findById (store.map g) recordId = (findById store recordId).map g := by
  induction store with
  | nil => rfl
  | cons a l ih =>
    by_cases ha : a.id = recordId
    · have : ((g a).id == recordId) = true := by simp [hg, ha]
      simp [findById, List.find?, this, ha]
    · have h1 : ((g a).id == recordId) = false := by simp [hg, ha]
      have h2 : (a.id == recordId) = false := by simp [ha]
      simpa [findById, List.find?, h1, h2] using ih

theorem findById_baseUpdate (store : Store) (i : String) (p : PartialFields) (j : String) :
    findById (baseUpdate store i p) j =
      (findById store j).map
        (fun r => if r.id = i then { r with fields := applyUpdate r.fields p } else r) := by
  unfold baseUpdate
  exact findById_map_idPreserving (by intro r; by_cases h : r.id = i <;> simp [h]) store j

theorem findById_baseReplace (store : Store) (i : String) (f : FieldSet) (j : String) :
    findById (baseReplace store i f) j =
      (findById store j).map (fun r => if r.id = i then { r with fields := f } else r) := by
  unfold baseReplace
  exact findById_map_idPreserving (by intro r; by_cases h : r.id = i <;> simp [h]) store j

theorem mem_baseDestroy {store : Store} {c : String} {x : AirtableRecord} :
    x ∈ baseDestroy store c ↔ x ∈ store ∧ x.id ≠ c := by
  unfold baseDestroy
  simp [List.mem_filter]

theorem findById_baseDestroy (store : Store) (c j : String) :
    findById (baseDestroy store c) j = if j = c then none else findById store j := by
  by_cases hjc : j = c
  · subst hjc
    rw [if_pos rfl]
    unfold findById
    apply List.find?_eq_none.mpr
    intro x hx
    have := (mem_baseDestroy.mp hx).2
    simpa using this
  · rw [if_neg hjc]
    unfold baseDestroy findById
    induction store with
    | nil => rfl
    | cons a l ih =>
      rw [List.filter_cons]
      by_cases hac : a.id = c
      · have h1 : (!(a.id == c)) = false := by simp [hac]
        have h2 : ¬ ((fun r => r.id == j) a = true) := by
          simp only [beq_iff_eq]
          intro hcontra
          exact hjc (by rw [← hcontra, hac])
        rw [h1]
        simp only [Bool.false_eq_true, if_false]
        rw [@List.find?_cons_of_neg _ (fun r => r.id == j) a l h2]
        exact ih
      · have h1 : (!(a.id == c)) = true := by simp [hac]
        rw [h1]
        simp only [if_true]
        by_cases haj : a.id = j
        · have h2 : ((fun r : AirtableRecord => r.id == j) a) = true := by simp [haj]
          rw [@List.find?_cons_of_pos _ (fun r => r.id == j) a _ h2,
              @List.find?_cons_of_pos _ (fun r => r.id == j) a _ h2]
        · have h2 : ¬ ((fun r : AirtableRecord => r.id == j) a = true) := by simp [haj]
          rw [@List.find?_cons_of_neg _ (fun r => r.id == j) a _ h2,
              @List.find?_cons_of_neg _ (fun r => r.id == j) a _ h2]
          exact ih

theorem findById_append_single (store : Store) (r : AirtableRecord) (j : String) :
    findById (store ++ [r]) j =
      match findById store j with
      | some x => some x
      | none => if r.id = j then some r else none := by
  induction store with
  | nil =>
    by_cases h : r.id = j
    · simp [findById, List.find?, h]
    · have h2 : (r.id == j) = false := by simp [h]
      simp [findById, List.find?, h2, h]
  | cons a l ih =>
    by_cases ha : a.id = j
    · simp [findById, List.find?, ha]
    · have h1 : (a.id == j) = false := by simp [ha]
      simpa [findById, List.find?, h1] using ih

theorem storeIds_baseUpdate (store : Store) (i : String) (p : PartialFields) :
    storeIds (baseUpdate store i p) = storeIds store := by
  unfold storeIds baseUpdate
  rw [List.map_map]
  refine List.map_congr_left ?_
  intro r _
  by_cases h : r.id = i <;> simp [h]

theorem storeIds_baseReplace (store : Store) (i : String) (f : FieldSet) :
    storeIds (baseReplace store i f) = storeIds store := by
  unfold storeIds baseReplace
  rw [List.map_map]
  refine List.map_congr_left ?_
  intro r _
  by_cases h : r.id = i <;> simp [h]

theorem storeIds_append (store : Store) (r : AirtableRecord) :
    storeIds (store ++ [r]) = storeIds store ++ [r.id] := by
  simp [storeIds]

theorem nodup_baseDestroy {store : Store} (hnd : (storeIds store).Nodup) (c : String) :
    (storeIds (baseDestroy store c)).Nodup := by
  unfold storeIds at hnd ⊢
  unfold baseDestroy
  exact List.Nodup.sublist (List.Sublist.map (fun r => r.id) (List.filter_sublist store)) hnd

/-! ### Branch equations of the single-record read -/

theorem get_zero (store : Store) (recordId : String) (preview itbd : Bool) :
    getStatefulRecordById 0 store recordId preview itbd = none := rfl

theorem get_find_none {store : Store} {recordId : String} (fuel : Nat) (preview itbd : Bool)
    (h : findById store recordId = none) :
    getStatefulRecordById (fuel + 1) store recordId preview itbd = none := by
  unfold getStatefulRecordById
  rw [h]

theorem get_draft {store : Store} {recordId : String} {r : AirtableRecord}
    (fuel : Nat) (preview itbd : Bool)
    (h : findById store recordId = some r) (hs : r.fields.state = "draft") :
    getStatefulRecordById (fuel + 1) store recordId preview itbd =
      if preview then convertAirtableRecordToStatefulRecord r else none := by
  unfold getStatefulRecordById
  rw [h]
  simp only [hs]
  simp

theorem get_changed {store : Store} {recordId : String} {r : AirtableRecord}
    (fuel : Nat) (preview itbd : Bool)
    (h : findById store recordId = some r) (hs : r.fields.state = "changed") :
    getStatefulRecordById (fuel + 1) store recordId preview itbd =
      if preview then convertAirtableRecordToStatefulRecord r
      else
        match relatedFirst r.fields with
        | none => none
        | some rid => getStatefulRecordById fuel store rid preview false := by
  simp only [getStatefulRecordById]
  rw [h]
  simp only [hs]
  simp

theorem get_published {store : Store} {recordId : String} {r : AirtableRecord}
    (fuel : Nat) (preview itbd : Bool)
    (h : findById store recordId = some r) (hs : r.fields.state = "published") :
    getStatefulRecordById (fuel + 1) store recordId preview itbd =
      convertAirtableRecordToStatefulRecord r := by
  unfold getStatefulRecordById
  rw [h]
  simp only [hs]
  simp

theorem get_phc {store : Store} {recordId : String} {r : AirtableRecord}
    (fuel : Nat) (preview itbd : Bool)
    (h : findById store recordId = some r) (hs : r.fields.state = "published-has-changes") :
    getStatefulRecordById (fuel + 1) store recordId preview itbd =
      if preview then
        match relatedFirst r.fields with
        | none => none
        | some rid => getStatefulRecordById fuel store rid preview false
      else convertAirtableRecordToStatefulRecord r := by
  simp only [getStatefulRecordById]
  rw [h]
  simp only [hs]
  simp

theorem get_ptbd {store : Store} {recordId : String} {r : AirtableRecord}
    (fuel : Nat) (preview itbd : Bool)
    (h : findById store recordId = some r) (hs : r.fields.state = "published-to-be-deleted") :
    getStatefulRecordById (fuel + 1) store recordId preview itbd =
      if itbd then convertAirtableRecordToStatefulRecord r else none := by
  unfold getStatefulRecordById
  rw [h]
  simp only [hs]
  simp

theorem get_deleted {store : Store} {recordId : String} {r : AirtableRecord}
    (fuel : Nat) (preview itbd : Bool)
    (h : findById store recordId = some r) (hs : r.fields.state = "deleted") :
    getStatefulRecordById (fuel + 1) store recordId preview itbd = none := by
  unfold getStatefulRecordById
  rw [h]
  simp only [hs]
  simp

theorem get_unknown {store : Store} {recordId : String} {r : AirtableRecord}
    (fuel : Nat) (preview itbd : Bool)
    (h : findById store recordId = some r)
    (h1 : r.fields.state ≠ "draft") (h2 : r.fields.state ≠ "changed")
    (h3 : r.fields.state ≠ "published") (h4 : r.fields.state ≠ "published-has-changes")
    (h5 : r.fields.state ≠ "published-to-be-deleted") (h6 : r.fields.state ≠ "deleted") :
    getStatefulRecordById (fuel + 1) store recordId preview itbd = none := by
  unfold getStatefulRecordById
  rw [h]
  simp [h1, h2, h3, h4, h5, h6]

/-- Every record returned by the read is the conversion of some stored row,
findable under its own id. -/
theorem get_some_elim {store : Store} {recordId : String} {preview itbd : Bool}
    {sr : StatefulRecord} {fuel : Nat}
    (h : getStatefulRecordById fuel store recordId preview itbd = some sr) :
    ∃ raw ∈ store, findById store raw.id = some raw
      ∧ convertAirtableRecordToStatefulRecord raw = some sr := by
  induction fuel generalizing recordId itbd with
  | zero => exact absurd (get_zero store recordId preview itbd ▸ h) (by simp)
  | succ fuel ih =>
    cases hf : findById store recordId with
    | none => exact absurd ((get_find_none fuel preview itbd hf) ▸ h) (by simp)
    | some r =>
      have hmem := (findById_eq_some hf).1
      have hid := (findById_eq_some hf).2
      have hfr : findById store r.id = some r := by rw [hid]; exact hf
      by_cases s1 : r.fields.state = "draft"
      · rw [get_draft fuel preview itbd hf s1] at h
        cases preview with
        | true => exact ⟨r, hmem, hfr, by simpa using h⟩
        | false => exact absurd h (by simp)
      · by_cases s2 : r.fields.state = "changed"
        · rw [get_changed fuel preview itbd hf s2] at h
          cases preview with
          | true => exact ⟨r, hmem, hfr, by simpa using h⟩
          | false =>
            simp only [Bool.false_eq_true, if_false] at h
            cases hrel : relatedFirst r.fields with
            | none => rw [hrel] at h; exact absurd h (by simp)
            | some rid => rw [hrel] at h; exact ih h
        · by_cases s3 : r.fields.state = "published"
          · rw [get_published fuel preview itbd hf s3] at h
            exact ⟨r, hmem, hfr, h⟩
          · by_cases s4 : r.fields.state = "published-has-changes"
            · rw [get_phc fuel preview itbd hf s4] at h
              cases preview with
              | true =>
                simp only [if_true] at h
                cases hrel : relatedFirst r.fields with
                | none => rw [hrel] at h; exact absurd h (by simp)
                | some rid => rw [hrel] at h; exact ih h
              | false => exact ⟨r, hmem, hfr, by simpa using h⟩
            · by_cases s5 : r.fields.state = "published-to-be-deleted"
              · rw [get_ptbd fuel preview itbd hf s5] at h
                cases itbd with
                | true => exact ⟨r, hmem, hfr, by simpa using h⟩
                | false => exact absurd h (by simp)
              · by_cases s6 : r.fields.state = "deleted"
                · exact absurd ((get_deleted fuel preview itbd hf s6) ▸ h) (by simp)
                · exact absurd ((get_unknown fuel preview itbd hf s1 s2 s3 s4 s5 s6) ▸ h)
                    (by simp)

/-- Closure of the preview read without `includeToBeDeleted`: every returned
record has status `draft`, `changed` or `published`. -/
theorem get_preview_status {fuel : Nat} {store : Store} {recordId : String}
    {sr : StatefulRecord}
    (h : getStatefulRecordById fuel store recordId true false = some sr) :
    sr.status = "draft" ∨ sr.status = "changed" ∨ sr.status = "published" := by
  induction fuel generalizing recordId with
  | zero => exact absurd (get_zero store recordId true false ▸ h) (by simp)
  | succ fuel ih =>
    cases hf : findById store recordId with
    | none => exact absurd ((get_find_none fuel true false hf) ▸ h) (by simp)
    | some r =>
      by_cases s1 : r.fields.state = "draft"
      · rw [get_draft fuel true false hf s1, if_pos rfl] at h
        exact Or.inl (by rw [convert_some_status h, s1])
      · by_cases s2 : r.fields.state = "changed"
        · rw [get_changed fuel true false hf s2, if_pos rfl] at h
          exact Or.inr (Or.inl (by rw [convert_some_status h, s2]))
        · by_cases s3 : r.fields.state = "published"
          · rw [get_published fuel true false hf s3] at h
            exact Or.inr (Or.inr (by rw [convert_some_status h, s3]))
          · by_cases s4 : r.fields.state = "published-has-changes"
            · rw [get_phc fuel true false hf s4, if_pos rfl] at h
              cases hrel : relatedFirst r.fields with
              | none => rw [hrel] at h; exact absurd h (by simp)
              | some rid => rw [hrel] at h; exact ih h
            · by_cases s5 : r.fields.state = "published-to-be-deleted"
              · rw [get_ptbd fuel true false hf s5] at h
                exact absurd h (by simp)
              · by_cases s6 : r.fields.state = "deleted"
                · exact absurd ((get_deleted fuel true false hf s6) ▸ h) (by simp)
                · exact absurd ((get_unknown fuel true false hf s1 s2 s3 s4 s5 s6) ▸ h)
                    (by simp)

/-! ### Resolution under the shadow-pairing invariant -/

/-- In a well-formed store a preview read either returns the conversion of the
row found at the requested id, or — when that row is `published-has-changes` —
the conversion of its `changed` partner, reached in one recursion step. -/
theorem resolve_preview_cases {store : Store} (hwf : wellFormed store)
    {fuel : Nat} {recordId : String} {itbd : Bool} {sr : StatefulRecord}
    (h : getStatefulRecordById fuel store recordId true itbd = some sr) :
    ∃ record, findById store recordId = some record ∧
      ((record.fields.state ≠ "published-has-changes"
          ∧ convertAirtableRecordToStatefulRecord record = some sr)
       ∨ (record.fields.state = "published-has-changes"
          ∧ ∃ c ∈ store, relatedFirst record.fields = some c.id ∧ c.fields.state = "changed"
              ∧ relatedFirst c.fields = some record.id
              ∧ convertAirtableRecordToStatefulRecord c = some sr)) := by
  obtain ⟨hnd, hpc, hpp⟩ := hwf
  cases fuel with
  | zero => exact absurd (get_zero store recordId true itbd ▸ h) (by simp)
  | succ fuel =>
    cases hf : findById store recordId with
    | none => exact absurd ((get_find_none fuel true itbd hf) ▸ h) (by simp)
    | some r =>
      have hmem := (findById_eq_some hf).1
      by_cases s4 : r.fields.state = "published-has-changes"
      · rw [get_phc fuel true itbd hf s4, if_pos rfl] at h
        obtain ⟨c, hcmem, hje, hcs, hcr⟩ := hpp r hmem s4
        simp only [hje] at h
        cases fuel with
        | zero => exact absurd (get_zero store c.id true false ▸ h) (by simp)
        | succ fuel2 =>
          rw [get_changed fuel2 true false (findById_self hnd hcmem) hcs, if_pos rfl] at h
          exact ⟨r, rfl, Or.inr ⟨s4, c, hcmem, hje, hcs, hcr, h⟩⟩
      · refine ⟨r, rfl, Or.inl ⟨s4, ?_⟩⟩
        by_cases s1 : r.fields.state = "draft"
        · rw [get_draft fuel true itbd hf s1, if_pos rfl] at h
          exact h
        · by_cases s2 : r.fields.state = "changed"
          · rw [get_changed fuel true itbd hf s2, if_pos rfl] at h
            exact h
          · by_cases s3 : r.fields.state = "published"
            · rw [get_published fuel true itbd hf s3] at h
              exact h
            · by_cases s5 : r.fields.state = "published-to-be-deleted"
              · rw [get_ptbd fuel true itbd hf s5] at h
                cases itbd with
                | true => simpa using h
                | false => exact absurd h (by simp)
              · by_cases s6 : r.fields.state = "deleted"
                · exact absurd ((get_deleted fuel true itbd hf s6) ▸ h) (by simp)
                · exact absurd ((get_unknown fuel true itbd hf s1 s2 s3 s4 s5 s6) ▸ h)
                    (by simp)

/-- In a well-formed store, two units of fuel fully determine the read: the
recursion depth of the source never exceeds one. -/
theorem get_fuel_stable {store : Store} (hwf : wellFormed store)
    (recordId : String) (preview itbd : Bool) (n : Nat) :
    getStatefulRecordById (n + 2) store recordId preview itbd =
      getStatefulRecordById 2 store recordId preview itbd := by
  obtain ⟨hnd, hpc, hpp⟩ := hwf
  cases hf : findById store recordId with
  | none => rw [get_find_none (n + 1) preview itbd hf, get_find_none 1 preview itbd hf]
  | some r =>
    have hmem := (findById_eq_some hf).1
    by_cases s1 : r.fields.state = "draft"
    · rw [get_draft (n + 1) preview itbd hf s1, get_draft 1 preview itbd hf s1]
    · by_cases s2 : r.fields.state = "changed"
      · rw [get_changed (n + 1) preview itbd hf s2, get_changed 1 preview itbd hf s2]
        cases preview with
        | true => rfl
        | false =>
          simp only [Bool.false_eq_true, if_false]
          obtain ⟨p, hpmem, hje, hps, hpr⟩ := hpc r hmem s2
          simp only [hje]
          have hfp : findById store p.id = some p := findById_self hnd hpmem
          have e1 := get_phc n false false hfp hps
          have e2 := get_phc 0 false false hfp hps
          rw [Nat.zero_add] at e2
          rw [if_neg (by simp)] at e1 e2
          rw [e1, e2]
      · by_cases s3 : r.fields.state = "published"
        · rw [get_published (n + 1) preview itbd hf s3, get_published 1 preview itbd hf s3]
        · by_cases s4 : r.fields.state = "published-has-changes"
          · rw [get_phc (n + 1) preview itbd hf s4, get_phc 1 preview itbd hf s4]
            cases preview with
            | false => rfl
            | true =>
              simp only [if_pos rfl]
              obtain ⟨c, hcmem, hje, hcs, hcr⟩ := hpp r hmem s4
              simp only [hje]
              have hfc : findById store c.id = some c := findById_self hnd hcmem
              have e1 := get_changed n true false hfc hcs
              have e2 := get_changed 0 true false hfc hcs
              rw [Nat.zero_add] at e2
              rw [if_pos rfl] at e1 e2
              rw [e1, e2]
          · by_cases s5 : r.fields.state = "published-to-be-deleted"
            · rw [get_ptbd (n + 1) preview itbd hf s5, get_ptbd 1 preview itbd hf s5]
            · by_cases s6 : r.fields.state = "deleted"
              · rw [get_deleted (n + 1) preview itbd hf s6, get_deleted 1 preview itbd hf s6]
              · rw [get_unknown (n + 1) preview itbd hf s1 s2 s3 s4 s5 s6,
                    get_unknown 1 preview itbd hf s1 s2 s3 s4 s5 s6]

/-! ### Branch equations of the mutation operations -/

theorem updateRecord_resolve_none {fuel : Nat} {store : Store} {freshId recordId : String}
    {upd : PartialFields}
    (h : getStatefulRecordById fuel store recordId true false = none) :
    updateRecord fuel store freshId recordId upd = .error (.notFound recordId) := by
  unfold updateRecord
  rw [h]

theorem updateRecord_published_eq {fuel : Nat} {store : Store} {freshId recordId : String}
    {upd : PartialFields} {record : StatefulRecord}
    (h : getStatefulRecordById fuel store recordId true false = some record)
    (hs : record.status = "published") :
    updateRecord fuel store freshId recordId upd =
      .ok (baseUpdate
            (store ++ [{ id := freshId, createdTime := "",
                         fields := { state := "changed", related := some [record.id],
                                     user := mergeUser record.fields.user upd.user } }])
            record.id
            { state := some "published-has-changes", related := some [freshId], user := [] },
          some { id := record.id, createdTime := "", status := "changed",
                 changedRecordId := some freshId,
                 fields := { state := "changed", related := some [record.id],
                             user := mergeUser record.fields.user upd.user } }) := by
  unfold updateRecord
  rw [h]
  simp only [hs]
  simp [createRecord, baseCreate, convertAirtableRecordToStatefulRecord, relatedFirst]

theorem updateRecord_draft_eq {fuel : Nat} {store : Store} {freshId recordId : String}
    {upd : PartialFields} {record : StatefulRecord} {raw : AirtableRecord}
    (h : getStatefulRecordById fuel store recordId true false = some record)
    (hs : record.status = "draft")
    (hraw : findById store record.id = some raw) :
    updateRecord fuel store freshId recordId upd =
      .ok (baseUpdate store record.id upd,
           convertAirtableRecordToStatefulRecord
             { raw with fields := applyUpdate raw.fields upd }) := by
  unfold updateRecord
  rw [h]
  simp only [hs, hraw]
  simp

theorem updateRecord_changed_eq {fuel : Nat} {store : Store} {freshId recordId cid : String}
    {upd : PartialFields} {record : StatefulRecord} {raw : AirtableRecord}
    (h : getStatefulRecordById fuel store recordId true false = some record)
    (hs : record.status = "changed")
    (hcid : record.changedRecordId = some cid)
    (hraw : findById store cid = some raw) :
    updateRecord fuel store freshId recordId upd =
      .ok (baseUpdate store cid upd,
           convertAirtableRecordToStatefulRecord
             { raw with fields := applyUpdate raw.fields upd }) := by
  unfold updateRecord
  rw [h]
  simp only [hs, hcid, hraw]
  simp

theorem updateRecord_other_eq {fuel : Nat} {store : Store} {freshId recordId : String}
    {upd : PartialFields} {record : StatefulRecord}
    (h : getStatefulRecordById fuel store recordId true false = some record)
    (h1 : record.status ≠ "published") (h2 : record.status ≠ "draft")
    (h3 : record.status ≠ "changed") :
    updateRecord fuel store freshId recordId upd =
      .error (.invalidTransition "update" record.status) := by
  unfold updateRecord
  rw [h]
  simp [h1, h2, h3]

theorem deleteRecord_resolve_none {fuel : Nat} {store : Store} {recordId : String}
    (h : getStatefulRecordById fuel store recordId true false = none) :
    deleteRecord fuel store recordId = .error (.notFound recordId) := by
  unfold deleteRecord
  rw [h]

theorem deleteRecord_published_eq {fuel : Nat} {store : Store} {recordId : String}
    {record : StatefulRecord}
    (h : getStatefulRecordById fuel store recordId true false = some record)
    (hs : record.status = "published") :
    deleteRecord fuel store recordId =
      .ok (baseUpdate store recordId
            { state := some "published-deleted", related := none, user := [] }) := by
  unfold deleteRecord
  rw [h]
  simp only [hs]
  simp

theorem deleteRecord_draft_eq {fuel : Nat} {store : Store} {recordId : String}
    {record : StatefulRecord}
    (h : getStatefulRecordById fuel store recordId true false = some record)
    (hs : record.status = "draft") :
    deleteRecord fuel store recordId =
      .ok (baseUpdate store recordId
            { state := some "deleted", related := none, user := [] }) := by
  unfold deleteRecord
  rw [h]
  simp only [hs]
  simp

theorem deleteRecord_changed_eq {fuel : Nat} {store : Store} {recordId cid : String}
    {record : StatefulRecord}
    (h : getStatefulRecordById fuel store recordId true false = some record)
    (hs : record.status = "changed")
    (hcid : record.changedRecordId = some cid) :
    deleteRecord fuel store recordId =
      .ok (baseDestroy
            (baseUpdate store record.id
              { state := some "published-deleted", related := none, user := [] })
            cid) := by
  unfold deleteRecord
  rw [h]
  simp only [hs, hcid]
  simp

theorem deleteRecord_other_eq {fuel : Nat} {store : Store} {recordId : String}
    {record : StatefulRecord}
    (h : getStatefulRecordById fuel store recordId true false = some record)
    (h1 : record.status ≠ "published") (h2 : record.status ≠ "draft")
    (h3 : record.status ≠ "changed") :
    deleteRecord fuel store recordId =
      .error (.invalidTransition "delete" record.status) := by
  unfold deleteRecord
  rw [h]
  simp [h1, h2, h3]

theorem publishOne_resolve_none {fuel : Nat} {store : Store} {recordId : String}
    (h : getStatefulRecordById fuel store recordId true true = none) :
    publishOne fuel store recordId = .error (.notFound recordId) := by
  unfold publishOne
  rw [h]

theorem publishOne_draft_eq {fuel : Nat} {store : Store} {recordId : String}
    {record : StatefulRecord} {raw : AirtableRecord}
    (h : getStatefulRecordById fuel store recordId true true = some record)
    (hs : record.status = "draft")
    (hraw : findById store record.id = some raw) :
    publishOne fuel store recordId =
      .ok (baseUpdate store record.id { state := some "published", related := none, user := [] },
           [convertAirtableRecordToStatefulRecord
             { raw with fields :=
                 applyUpdate raw.fields ⟨some "published", none, []⟩ }],
           []) := by
  unfold publishOne
  rw [h]
  simp only [hs, hraw]
  simp

theorem publishOne_changed_eq {fuel : Nat} {store : Store} {recordId cid : String}
    {record : StatefulRecord} {raw : AirtableRecord}
    (h : getStatefulRecordById fuel store recordId true true = some record)
    (hs : record.status = "changed")
    (hraw : findById store record.id = some raw)
    (hcid : record.changedRecordId = some cid) :
    publishOne fuel store recordId =
      .ok (baseDestroy
            (baseReplace store record.id
              { state := "published", related := some [], user := record.fields.user })
            cid,
           [convertAirtableRecordToStatefulRecord
             { raw with fields := { state := "published", related := some [],
                                    user := record.fields.user } }],
           []) := by
  unfold publishOne
  rw [h]
  simp only [hs, hraw, hcid]
  simp

theorem publishOne_ptbd_eq {fuel : Nat} {store : Store} {recordId : String}
    {record : StatefulRecord}
    (h : getStatefulRecordById fuel store recordId true true = some record)
    (hs : record.status = "published-to-be-deleted") :
    publishOne fuel store recordId =
      .ok (baseUpdate store record.id { state := some "deleted", related := none, user := [] },
           [], [record.id]) := by
  unfold publishOne
  rw [h]
  simp only [hs]
  simp

theorem publishOne_other_eq {fuel : Nat} {store : Store} {recordId : String}
    {record : StatefulRecord}
    (h : getStatefulRecordById fuel store recordId true true = some record)
    (h1 : record.status ≠ "draft") (h2 : record.status ≠ "changed")
    (h3 : record.status ≠ "published-to-be-deleted") :
    publishOne fuel store recordId =
      .error (.invalidTransition "publish" record.status) := by
  unfold publishOne
  rw [h]
  simp [h1, h2, h3]

/-! ### Preservation of the shadow-pairing invariant -/

/-- The identity-, state- and link-projection of a row: `wellFormed` only
depends on these. -/
def sigOf (r : AirtableRecord) : String × String × Option String :=
  (r.id, r.fields.state, relatedFirst r.fields)

theorem wellFormed_of_sig_eq {s1 s2 : Store} (h : s1.map sigOf = s2.map sigOf)
    (hwf : wellFormed s1) : wellFormed s2 := by
  obtain ⟨hnd, hpc, hpp⟩ := hwf
  have hids : storeIds s2 = storeIds s1 := by
    have h1 : (s2.map sigOf).map (fun t => t.1) = (s1.map sigOf).map (fun t => t.1) := by rw [h]
    simpa [storeIds, List.map_map, sigOf] using h1
  have htrans : ∀ x ∈ s2, ∃ y ∈ s1, y.id = x.id ∧ y.fields.state = x.fields.state
      ∧ relatedFirst y.fields = relatedFirst x.fields := by
    intro x hx
    have hm : sigOf x ∈ s1.map sigOf := by
      rw [h]
      exact List.mem_map_of_mem sigOf hx
    rcases List.mem_map.mp hm with ⟨y, hy, hsig⟩
    have hsig2 : y.id = x.id ∧ y.fields.state = x.fields.state
        ∧ relatedFirst y.fields = relatedFirst x.fields := by
      simpa [sigOf, Prod.ext_iff] using hsig
    exact ⟨y, hy, hsig2⟩
  have htrans2 : ∀ y ∈ s1, ∃ x ∈ s2, x.id = y.id ∧ x.fields.state = y.fields.state
      ∧ relatedFirst x.fields = relatedFirst y.fields := by
    intro y hy
    have hm : sigOf y ∈ s2.map sigOf := by
      rw [← h]
      exact List.mem_map_of_mem sigOf hy
    rcases List.mem_map.mp hm with ⟨x, hx, hsig⟩
    have hsig2 : x.id = y.id ∧ x.fields.state = y.fields.state
        ∧ relatedFirst x.fields = relatedFirst y.fields := by
      simpa [sigOf, Prod.ext_iff] using hsig
    exact ⟨x, hx, hsig2⟩
  refine ⟨by rw [hids]; exact hnd, ?_, ?_⟩
  · intro c hc hcs
    obtain ⟨c1, hc1, hcid, hcst, hcrel⟩ := htrans c hc
    obtain ⟨p1, hp1, hrel, hps, hpr⟩ := hpc c1 hc1 (by rw [hcst, hcs])
    obtain ⟨p2, hp2, hpid, hpst, hprel⟩ := htrans2 p1 hp1
    refine ⟨p2, hp2, ?_, ?_, ?_⟩
    · rw [← hcrel, hrel, hpid]
    · rw [hpst, hps]
    · rw [hprel, hpr, hcid]
  · intro p hp hps
    obtain ⟨p1, hp1, hpid, hpst, hprel⟩ := htrans p hp
    obtain ⟨c1, hc1, hrel, hcs, hcr⟩ := hpp p1 hp1 (by rw [hpst, hps])
    obtain ⟨c2, hc2, hcid, hcst, hcrel⟩ := htrans2 c1 hc1
    refine ⟨c2, hc2, ?_, ?_, ?_⟩
    · rw [← hprel, hrel, hcid]
    · rw [hcst, hcs]
    · rw [hcrel, hcr, hpid]

/-- A payload touching neither `State` nor `Related` preserves the invariant. -/
theorem wf_baseUpdate_neutral {store : Store} (hwf : wellFormed store) (i : String)
    {p : PartialFields} (h1 : p.state = none) (h2 : p.related = none) :
    wellFormed (baseUpdate store i p) := by
  refine wellFormed_of_sig_eq ?_ hwf
  unfold baseUpdate
  rw [List.map_map]
  refine List.map_congr_left ?_
  intro r _
  by_cases hr : r.id = i
  · simp [sigOf, hr, applyUpdate, h1, h2, relatedFirst]
  · simp [sigOf, hr]

/-- Appending a fresh row whose state is not one of the paired states
preserves the invariant. -/
theorem wf_append_nonpair {store : Store} (hwf : wellFormed store) {r : AirtableRecord}
    (hfresh : findById store r.id = none)
    (h1 : r.fields.state ≠ "changed") (h2 : r.fields.state ≠ "published-has-changes") :
    wellFormed (store ++ [r]) := by
  obtain ⟨hnd, hpc, hpp⟩ := hwf
  have hnotin : r.id ∉ storeIds store := by
    intro hin
    rcases List.mem_map.mp hin with ⟨x, hx, hxe⟩
    exact (findById_eq_none hfresh x hx) hxe
  refine ⟨?_, ?_, ?_⟩
  · rw [storeIds_append]
    refine List.Nodup.append hnd (List.nodup_singleton _) ?_
    intro a ha hb
    rcases List.mem_singleton.mp hb with rfl
    exact hnotin ha
  · intro c hc hcs
    rcases List.mem_append.mp hc with hc1 | hc2
    · obtain ⟨p0, hp0mem, hrel, hp0s, hp0r⟩ := hpc c hc1 hcs
      exact ⟨p0, List.mem_append_left _ hp0mem, hrel, hp0s, hp0r⟩
    · have hcr : c = r := by simpa using hc2
      exact absurd (hcr ▸ hcs) h1
  · intro q hq hqs
    rcases List.mem_append.mp hq with hq1 | hq2
    · obtain ⟨c0, hc0mem, hrel, hc0s, hc0r⟩ := hpp q hq1 hqs
      exact ⟨c0, List.mem_append_left _ hc0mem, hrel, hc0s, hc0r⟩
    · have hqr : q = r := by simpa using hq2
      exact absurd (hqr ▸ hqs) h2

/-- Patching a row from a non-paired state to a non-paired state preserves the
invariant. -/
theorem wf_patch_nonpair {store : Store} (hwf : wellFormed store) {i : String}
    {r : AirtableRecord} (hf : findById store i = some r)
    (hr1 : r.fields.state ≠ "changed") (hr2 : r.fields.state ≠ "published-has-changes")
    {p : PartialFields}
    (hp1 : (applyUpdate r.fields p).state ≠ "changed")
    (hp2 : (applyUpdate r.fields p).state ≠ "published-has-changes") :
    wellFormed (baseUpdate store i p) := by
  obtain ⟨hnd, hpc, hpp⟩ := hwf
  obtain ⟨hrmem, hrid⟩ := findById_eq_some hf
  have hximg : ∀ x ∈ store, x.id ≠ i →
      (if x.id = i then { x with fields := applyUpdate x.fields p } else x) = x := by
    intro x _ hxi
    simp [hxi]
  refine ⟨by rw [storeIds_baseUpdate]; exact hnd, ?_, ?_⟩
  · intro c hc hcs
    unfold baseUpdate at hc
    rcases List.mem_map.mp hc with ⟨x, hx, hxe⟩
    by_cases hxi : x.id = i
    · have hxr : x = r := mem_id_inj hnd hx hrmem (by rw [hxi, hrid])
      rw [if_pos hxi] at hxe
      rw [← hxe] at hcs
      exact absurd (hxr ▸ hcs) hp1
    · rw [if_neg hxi] at hxe
      subst hxe
      obtain ⟨p0, hp0mem, hrel, hp0s, hp0r⟩ := hpc x hx hcs
      have hp0i : p0.id ≠ i := by
        intro hcontra
        have : p0 = r := mem_id_inj hnd hp0mem hrmem (by rw [hcontra, hrid])
        exact hr2 (this ▸ hp0s)
      refine ⟨p0, ?_, hrel, hp0s, hp0r⟩
      unfold baseUpdate
      have hmm := List.mem_map_of_mem
        (fun y => if y.id = i then { y with fields := applyUpdate y.fields p } else y) hp0mem
      simpa [hp0i] using hmm
  · intro q hq hqs
    unfold baseUpdate at hq
    rcases List.mem_map.mp hq with ⟨x, hx, hxe⟩
    by_cases hxi : x.id = i
    · have hxr : x = r := mem_id_inj hnd hx hrmem (by rw [hxi, hrid])
      rw [if_pos hxi] at hxe
      rw [← hxe] at hqs
      exact absurd (hxr ▸ hqs) hp2
    · rw [if_neg hxi] at hxe
      subst hxe
      obtain ⟨c0, hc0mem, hrel, hc0s, hc0r⟩ := hpp x hx hqs
      have hc0i : c0.id ≠ i := by
        intro hcontra
        have : c0 = r := mem_id_inj hnd hc0mem hrmem (by rw [hcontra, hrid])
        exact hr1 (this ▸ hc0s)
      refine ⟨c0, ?_, hrel, hc0s, hc0r⟩
      unfold baseUpdate
      have hmm := List.mem_map_of_mem
        (fun y => if y.id = i then { y with fields := applyUpdate y.fields p } else y) hc0mem
      simpa [hc0i] using hmm

/-- The copy-on-write step of update-on-published creates the shadow pair
together and preserves the invariant. -/
theorem wf_update_published {store : Store} (hwf : wellFormed store)
    {P : AirtableRecord} (hPf : findById store P.id = some P)
    (hPs : P.fields.state = "published")
    {freshId : String} (hfresh : findById store freshId = none)
    (u : List (String × String)) :
    wellFormed (baseUpdate
      (store ++ [{ id := freshId, createdTime := "",
                   fields := { state := "changed", related := some [P.id], user := u } }])
      P.id
      { state := some "published-has-changes", related := some [freshId], user := [] }) := by
  obtain ⟨hnd, hpc, hpp⟩ := hwf
  have hPmem : P ∈ store := (findById_eq_some hPf).1
  have hPfresh : P.id ≠ freshId := findById_eq_none hfresh P hPmem
  set shadow : AirtableRecord :=
    { id := freshId, createdTime := "",
      fields := { state := "changed", related := some [P.id], user := u } } with hshadow
  set pp : PartialFields :=
    { state := some "published-has-changes", related := some [freshId], user := [] } with hpp2
  set Ppatched : AirtableRecord := { P with fields := applyUpdate P.fields pp } with hPp
  have hPpst : Ppatched.fields.state = "published-has-changes" := by
    rw [hPp]
    simp [applyUpdate, hpp2]
  have hPprel : relatedFirst Ppatched.fields = some freshId := by
    rw [hPp]
    simp [applyUpdate, relatedFirst, hpp2]
  have hshrel : relatedFirst shadow.fields = some P.id := by
    simp [hshadow, relatedFirst]
  have himg : ∀ x ∈ store ++ [shadow],
      (if x.id = P.id then { x with fields := applyUpdate x.fields pp } else x) ∈
        baseUpdate (store ++ [shadow]) P.id pp := by
    intro x hx
    unfold baseUpdate
    exact List.mem_map_of_mem _ hx
  have hmemP : Ppatched ∈ baseUpdate (store ++ [shadow]) P.id pp := by
    have := himg P (List.mem_append_left _ hPmem)
    simpa [hPp] using this
  have hmemsh : shadow ∈ baseUpdate (store ++ [shadow]) P.id pp := by
    have := himg shadow (List.mem_append_right _ (List.mem_singleton_self _))
    have hne : shadow.id ≠ P.id := by
      rw [hshadow]
      exact fun hcontra => hPfresh hcontra.symm
    simpa [hne] using this
  have holdimg : ∀ x ∈ store, x.id ≠ P.id →
      x ∈ baseUpdate (store ++ [shadow]) P.id pp := by
    intro x hx hxne
    have := himg x (List.mem_append_left _ hx)
    simpa [hxne] using this
  have hcases : ∀ y ∈ baseUpdate (store ++ [shadow]) P.id pp,
      y = Ppatched ∨ y = shadow ∨ (y ∈ store ∧ y.id ≠ P.id) := by
    intro y hy
    unfold baseUpdate at hy
    rcases List.mem_map.mp hy with ⟨x, hx, hxe⟩
    rcases List.mem_append.mp hx with hx1 | hx2
    · by_cases hxi : x.id = P.id
      · have hxP : x = P := mem_id_inj hnd hx1 hPmem hxi
        left
        rw [← hxe, if_pos hxi, hxP, hPp]
      · right; right
        rw [← hxe, if_neg hxi]
        exact ⟨hx1, hxi⟩
    · have hxs : x = shadow := by simpa using hx2
      right; left
      have hxi : x.id ≠ P.id := by
        rw [hxs, hshadow]
        exact fun hcontra => hPfresh hcontra.symm
      rw [← hxe, if_neg hxi, hxs]
  refine ⟨?_, ?_, ?_⟩
  · rw [storeIds_baseUpdate, storeIds_append]
    refine List.Nodup.append hnd (List.nodup_singleton _) ?_
    intro a ha hb
    rcases List.mem_singleton.mp hb with rfl
    rcases List.mem_map.mp ha with ⟨x, hx, hxe⟩
    exact (findById_eq_none hfresh x hx) hxe
  · intro c hc hcs
    rcases hcases c hc with rfl | rfl | ⟨hcmem, hcne⟩
    · exact absurd hcs (by rw [hPpst]; decide)
    · refine ⟨Ppatched, hmemP, ?_, hPpst, ?_⟩
      · rw [hshrel, hPp]
      · rw [hPprel, hshadow]
    · obtain ⟨p0, hp0mem, hrel, hp0s, hp0r⟩ := hpc c hcmem hcs
      have hp0ne : p0.id ≠ P.id := by
        intro hcontra
        have : p0 = P := mem_id_inj hnd hp0mem hPmem hcontra
        rw [this, hPs] at hp0s
        exact absurd hp0s (by decide)
      exact ⟨p0, holdimg p0 hp0mem hp0ne, hrel, hp0s, hp0r⟩
  · intro q hq hqs
    rcases hcases q hq with rfl | rfl | ⟨hqmem, hqne⟩
    · refine ⟨shadow, hmemsh, ?_, ?_, ?_⟩
      · rw [hPprel, hshadow]
      · simp [hshadow]
      · rw [hshrel, hPp]
    · exact absurd hqs (by simp [hshadow])
    · obtain ⟨c0, hc0mem, hrel, hc0s, hc0r⟩ := hpp q hqmem hqs
      have hc0ne : c0.id ≠ P.id := by
        intro hcontra
        have : c0 = P := mem_id_inj hnd hc0mem hPmem hcontra
        rw [this, hPs] at hc0s
        exact absurd hc0s (by decide)
      exact ⟨c0, holdimg c0 hc0mem hc0ne, hrel, hc0s, hc0r⟩

/-- Retiring a shadow pair — rewriting the `published-has-changes` counterpart
to a non-paired state and destroying the `changed` shadow — preserves the
invariant. -/
theorem wf_retire_pair {store : Store} (hwf : wellFormed store)
    {c p : AirtableRecord} (hcmem : c ∈ store) (hpmem : p ∈ store)
    (hcs : c.fields.state = "changed") (hps : p.fields.state = "published-has-changes")
    (hcr : relatedFirst c.fields = some p.id) (hpr : relatedFirst p.fields = some c.id)
    (nf : AirtableRecord → FieldSet)
    (hnf1 : ∀ x, (nf x).state ≠ "changed")
    (hnf2 : ∀ x, (nf x).state ≠ "published-has-changes") :
    wellFormed (baseDestroy
      (store.map (fun x => if x.id = p.id then { x with fields := nf x } else x)) c.id) := by
  obtain ⟨hnd, hpc, hpp⟩ := hwf
  set g : AirtableRecord → AirtableRecord :=
    fun x => if x.id = p.id then { x with fields := nf x } else x with hg
  have hgid : ∀ x, (g x).id = x.id := by
    intro x
    rw [hg]
    by_cases hx : x.id = p.id <;> simp [hx]
  have hcnep : c.id ≠ p.id := by
    intro hcontra
    have : c = p := mem_id_inj hnd hcmem hpmem hcontra
    rw [this, hps] at hcs
    exact absurd hcs (by decide)
  have hndm : (storeIds (store.map g)).Nodup := by
    unfold storeIds
    rw [List.map_map]
    have : (fun r => r.id) ∘ g = fun r => r.id := by
      funext x
      exact hgid x
    rw [this]
    exact hnd
  have holdimg : ∀ x ∈ store, x.id ≠ p.id → x.id ≠ c.id →
      x ∈ baseDestroy (store.map g) c.id := by
    intro x hx hxp hxc
    refine mem_baseDestroy.mpr ⟨?_, hxc⟩
    have := List.mem_map_of_mem g hx
    rw [hg] at this
    simpa [hxp] using this
  have hcases : ∀ y ∈ baseDestroy (store.map g) c.id,
      (∃ x ∈ store, x.id = p.id ∧ y = { x with fields := nf x })
        ∨ (y ∈ store ∧ y.id ≠ p.id ∧ y.id ≠ c.id) := by
    intro y hy
    obtain ⟨hym, hyc⟩ := mem_baseDestroy.mp hy
    rcases List.mem_map.mp hym with ⟨x, hx, hxe⟩
    by_cases hxi : x.id = p.id
    · left
      refine ⟨x, hx, hxi, ?_⟩
      rw [← hxe, hg]
      simp [hxi]
    · right
      have hyx : y = x := by
        rw [← hxe, hg]
        simp [hxi]
      rw [hyx]
      refine ⟨hx, hxi, ?_⟩
      rw [← hyx]
      exact hyc
  refine ⟨nodup_baseDestroy hndm c.id, ?_, ?_⟩
  · intro y hy hys
    rcases hcases y hy with ⟨x, _, _, hye⟩ | ⟨hymem, hyp, hyc⟩
    · rw [hye] at hys
      exact absurd hys (hnf1 x)
    · obtain ⟨p0, hp0mem, hrel, hp0s, hp0r⟩ := hpc y hymem hys
      have hp0nec : p0.id ≠ c.id := by
        intro hcontra
        have : p0 = c := mem_id_inj hnd hp0mem hcmem hcontra
        rw [this, hcs] at hp0s
        exact absurd hp0s (by decide)
      have hp0nep : p0.id ≠ p.id := by
        intro hcontra
        have hp0p : p0 = p := mem_id_inj hnd hp0mem hpmem hcontra
        rw [hp0p, hpr] at hp0r
        have : c.id = y.id := by
          injection hp0r
        have hyc2 : y = c := mem_id_inj hnd hymem hcmem this.symm
        rw [hyc2] at hyc
        exact hyc rfl
      exact ⟨p0, holdimg p0 hp0mem hp0nep hp0nec, hrel, hp0s, hp0r⟩
  · intro y hy hys
    rcases hcases y hy with ⟨x, _, _, hye⟩ | ⟨hymem, hyp, hyc⟩
    · rw [hye] at hys
      exact absurd hys (hnf2 x)
    · obtain ⟨c0, hc0mem, hrel, hc0s, hc0r⟩ := hpp y hymem hys
      have hc0nep : c0.id ≠ p.id := by
        intro hcontra
        have : c0 = p := mem_id_inj hnd hc0mem hpmem hcontra
        rw [this, hps] at hc0s
        exact absurd hc0s (by decide)
      have hc0nec : c0.id ≠ c.id := by
        intro hcontra
        have hc0c : c0 = c := mem_id_inj hnd hc0mem hcmem hcontra
        rw [hc0c, hcr] at hc0r
        have : p.id = y.id := by
          injection hc0r
        have hyp2 : y = p := mem_id_inj hnd hymem hpmem this.symm
        exact hyp (by rw [hyp2])
      exact ⟨c0, holdimg c0 hc0mem hc0nep hc0nec, hrel, hc0s, hc0r⟩

/-- A well-formed preview resolution with a non-shadow status is a direct hit:
the row at the requested id has exactly the returned fields and status. -/
theorem resolve_plain {store : Store} (hwf : wellFormed store)
    {fuel : Nat} {recordId : String} {itbd : Bool} {sr : StatefulRecord}
    (h : getStatefulRecordById fuel store recordId true itbd = some sr)
    (hs1 : sr.status ≠ "changed") (hs2 : sr.status ≠ "published-has-changes") :
    ∃ raw, findById store recordId = some raw ∧ raw.id = recordId ∧ sr.id = recordId
      ∧ raw.fields = sr.fields ∧ raw.fields.state = sr.status := by
  rcases resolve_preview_cases hwf h with ⟨record, hfind, hcase | hcase⟩
  · obtain ⟨_, hconv⟩ := hcase
    have hplain := convert_plain_struct hconv hs1 hs2
    have hid := (findById_eq_some hfind).2
    refine ⟨record, hfind, hid, ?_, ?_, ?_⟩
    · rw [hplain, ← hid]
    · rw [hplain]
    · rw [hplain]
  · obtain ⟨_, c, _, _, hcs, _, hconv⟩ := hcase
    have hst := convert_some_status hconv
    rw [hcs] at hst
    exact absurd hst hs1

/-- A well-formed resolution to a `changed` record exposes the whole shadow
pair: the external id is the counterpart, the shadow id is the raw row. -/
theorem resolve_changed {store : Store} (hwf : wellFormed store)
    {fuel : Nat} {recordId : String} {itbd : Bool} {sr : StatefulRecord}
    (h : getStatefulRecordById fuel store recordId true itbd = some sr)
    (hs : sr.status = "changed") :
    ∃ c ∈ store, ∃ p ∈ store, c.fields.state = "changed"
      ∧ p.fields.state = "published-has-changes"
      ∧ relatedFirst c.fields = some p.id ∧ relatedFirst p.fields = some c.id
      ∧ sr.id = p.id ∧ sr.changedRecordId = some c.id ∧ sr.fields = c.fields := by
  rcases resolve_preview_cases hwf h with ⟨record, hfind, hcase | hcase⟩
  · obtain ⟨_, hconv⟩ := hcase
    obtain ⟨hrst, hrrel, hcid, hfields, _⟩ := convert_changed_struct hconv hs
    have hrmem := (findById_eq_some hfind).1
    obtain ⟨p, hpmem, hrel2, hps, hpr⟩ := hwf.2.1 record hrmem hrst
    have hsid : sr.id = p.id := by
      rw [hrrel] at hrel2
      injection hrel2
    exact ⟨record, hrmem, p, hpmem, hrst, hps, hrel2, hpr, hsid, hcid, hfields⟩
  · obtain ⟨hst, c, hcmem, hrel, hcs, hcr, hconv⟩ := hcase
    obtain ⟨_, hcrel2, hcid2, hfields2, _⟩ := convert_changed_struct hconv hs
    have hrmem := (findById_eq_some hfind).1
    have hsid : sr.id = record.id := by
      rw [hcrel2] at hcr
      injection hcr
    exact ⟨c, hcmem, record, hrmem, hcs, hst, hcr, hrel, hsid, hcid2, hfields2⟩

/-- `createRecord` with the defaulted `draft` state preserves the invariant. -/
theorem createRecord_wf {store : Store} (hwf : wellFormed store)
    {newId : String} {p : PartialFields} (hp : p.state = none)
    (hfresh : findById store newId = none) :
    wellFormed (createRecord store newId p).1 := by
  unfold createRecord baseCreate
  refine wf_append_nonpair hwf hfresh ?_ ?_ <;> simp [hp]

/-- `updateRecord` with a user-field payload preserves the invariant. -/
theorem updateRecord_ok_wf {fuel : Nat} {store : Store} (hwf : wellFormed store)
    {freshId recordId : String} {upd : PartialFields}
    (hstate : upd.state = none) (hrelated : upd.related = none)
    (hfresh : findById store freshId = none)
    {res : Store × Option StatefulRecord}
    (h : updateRecord fuel store freshId recordId upd = .ok res) :
    wellFormed res.1 := by
  cases hres : getStatefulRecordById fuel store recordId true false with
  | none =>
    rw [updateRecord_resolve_none hres] at h
    exact absurd h (by simp)
  | some record =>
    by_cases hs1 : record.status = "published"
    · rw [updateRecord_published_eq hres hs1] at h
      injection h with h1
      obtain ⟨raw, hfind, hrawid, hsrid, hfields, hstate2⟩ :=
        resolve_plain hwf hres (by rw [hs1]; decide) (by rw [hs1]; decide)
      have hid : record.id = raw.id := by rw [hsrid, hrawid]
      have huser : record.fields.user = raw.fields.user := by rw [← hfields]
      rw [← h1]
      simp only
      rw [hid, huser]
      refine wf_update_published hwf ?_ ?_ hfresh (mergeUser raw.fields.user upd.user)
      · rw [hrawid]
        exact hfind
      · rw [hstate2, hs1]
    · by_cases hs2 : record.status = "draft"
      · obtain ⟨raw, hfind, hrawid, hsrid, hfields, hstate2⟩ :=
          resolve_plain hwf hres (by rw [hs2]; decide) (by rw [hs2]; decide)
        have hraw2 : findById store record.id = some raw := by
          rw [hsrid]
          exact hfind
        rw [updateRecord_draft_eq hres hs2 hraw2] at h
        injection h with h1
        rw [← h1]
        exact wf_baseUpdate_neutral hwf record.id hstate hrelated
      · by_cases hs3 : record.status = "changed"
        · obtain ⟨c, hcmem, p, hpmem, hcs, hps, hcrel, hprel, hsid, hcid, hfields⟩ :=
            resolve_changed hwf hres hs3
          have hraw2 : findById store c.id = some c := findById_self hwf.1 hcmem
          rw [updateRecord_changed_eq hres hs3 hcid hraw2] at h
          injection h with h1
          rw [← h1]
          exact wf_baseUpdate_neutral hwf c.id hstate hrelated
        · rw [updateRecord_other_eq hres hs1 hs2 hs3] at h
          exact absurd h (by simp)

/-- `deleteRecord` preserves the invariant. -/
theorem deleteRecord_ok_wf {fuel : Nat} {store : Store} (hwf : wellFormed store)
    {recordId : String} {store2 : Store}
    (h : deleteRecord fuel store recordId = .ok store2) :
    wellFormed store2 := by
  cases hres : getStatefulRecordById fuel store recordId true false with
  | none =>
    rw [deleteRecord_resolve_none hres] at h
    exact absurd h (by simp)
  | some record =>
    by_cases hs1 : record.status = "published"
    · rw [deleteRecord_published_eq hres hs1] at h
      injection h with h1
      obtain ⟨raw, hfind, hrawid, hsrid, hfields, hstate2⟩ :=
        resolve_plain hwf hres (by rw [hs1]; decide) (by rw [hs1]; decide)
      rw [← h1]
      refine wf_patch_nonpair hwf hfind ?_ ?_ ?_ ?_
      · rw [hstate2, hs1]
        decide
      · rw [hstate2, hs1]
        decide
      · simp [applyUpdate]
      · simp [applyUpdate]
    · by_cases hs2 : record.status = "draft"
      · rw [deleteRecord_draft_eq hres hs2] at h
        injection h with h1
        obtain ⟨raw, hfind, hrawid, hsrid, hfields, hstate2⟩ :=
          resolve_plain hwf hres (by rw [hs2]; decide) (by rw [hs2]; decide)
        rw [← h1]
        refine wf_patch_nonpair hwf hfind ?_ ?_ ?_ ?_
        · rw [hstate2, hs2]
          decide
        · rw [hstate2, hs2]
          decide
        · simp [applyUpdate]
        · simp [applyUpdate]
      · by_cases hs3 : record.status = "changed"
        · obtain ⟨c, hcmem, p, hpmem, hcs, hps, hcrel, hprel, hsid, hcid, hfields⟩ :=
            resolve_changed hwf hres hs3
          rw [deleteRecord_changed_eq hres hs3 hcid] at h
          injection h with h1
          rw [← h1, hsid]
          exact wf_retire_pair hwf hcmem hpmem hcs hps hcrel hprel
            (fun x => applyUpdate x.fields
              { state := some "published-deleted", related := none, user := [] })
            (fun x => by simp [applyUpdate])
            (fun x => by simp [applyUpdate])
        · rw [deleteRecord_other_eq hres hs1 hs2 hs3] at h
          exact absurd h (by simp)

/-- One publish reference preserves the invariant. -/
theorem publishOne_ok_wf {fuel : Nat} {store : Store} (hwf : wellFormed store)
    {recordId : String} {res : Store × List (Option StatefulRecord) × List String}
    (h : publishOne fuel store recordId = .ok res) :
    wellFormed res.1 := by
  cases hres : getStatefulRecordById fuel store recordId true true with
  | none =>
    rw [publishOne_resolve_none hres] at h
    exact absurd h (by simp)
  | some record =>
    by_cases hs1 : record.status = "draft"
    · obtain ⟨raw, hfind, hrawid, hsrid, hfields, hstate2⟩ :=
        resolve_plain hwf hres (by rw [hs1]; decide) (by rw [hs1]; decide)
      have hraw2 : findById store record.id = some raw := by
        rw [hsrid]
        exact hfind
      rw [publishOne_draft_eq hres hs1 hraw2] at h
      injection h with h1
      rw [← h1]
      simp only
      refine wf_patch_nonpair hwf hraw2 ?_ ?_ ?_ ?_
      · rw [hstate2, hs1]
        decide
      · rw [hstate2, hs1]
        decide
      · simp [applyUpdate]
      · simp [applyUpdate]
    · by_cases hs2 : record.status = "changed"
      · obtain ⟨c, hcmem, p, hpmem, hcs, hps, hcrel, hprel, hsid, hcid, hfields⟩ :=
          resolve_changed hwf hres hs2
        have hraw2 : findById store record.id = some p := by
          rw [hsid]
          exact findById_self hwf.1 hpmem
        rw [publishOne_changed_eq hres hs2 hraw2 hcid] at h
        injection h with h1
        rw [← h1]
        simp only
        rw [hsid]
        exact wf_retire_pair hwf hcmem hpmem hcs hps hcrel hprel
          (fun _ => { state := "published", related := some [], user := record.fields.user })
          (fun x => by simp)
          (fun x => by simp)
      · by_cases hs3 : record.status = "published-to-be-deleted"
        · obtain ⟨raw, hfind, hrawid, hsrid, hfields, hstate2⟩ :=
            resolve_plain hwf hres (by rw [hs3]; decide) (by rw [hs3]; decide)
          rw [publishOne_ptbd_eq hres hs3] at h
          injection h with h1
          rw [← h1]
          simp only
          have hraw2 : findById store record.id = some raw := by
            rw [hsrid]
            exact hfind
          refine wf_patch_nonpair hwf hraw2 ?_ ?_ ?_ ?_
          · rw [hstate2, hs3]
            decide
          · rw [hstate2, hs3]
            decide
          · simp [applyUpdate]
          · simp [applyUpdate]
        · rw [publishOne_other_eq hres hs1 hs2 hs3] at h
          exact absurd h (by simp)

/-- A whole publish batch preserves the invariant. -/
theorem publishRecords_ok_wf {fuel : Nat} {recordIds : List String} :
    ∀ {store : Store}, wellFormed store →
      ∀ {res : Store × List (Option StatefulRecord) × List String},
        publishRecords fuel store recordIds = .ok res → wellFormed res.1 := by
  induction recordIds with
  | nil =>
    intro store hwf res h
    unfold publishRecords at h
    injection h with h1
    rw [← h1]
    exact hwf
  | cons recordId rest ih =>
    intro store hwf res h
    unfold publishRecords at h
    cases h1 : publishOne fuel store recordId with
    | error e =>
      rw [h1] at h
      exact absurd h (by simp)
    | ok out =>
      obtain ⟨store2, pubs, dels⟩ := out
      simp only [h1] at h
      have hwf2 : wellFormed store2 := publishOne_ok_wf hwf h1
      cases h2 : publishRecords fuel store2 rest with
      | error e =>
        simp only [h2] at h
        exact absurd h (by simp)
      | ok out2 =>
        obtain ⟨store3, pubs2, dels2⟩ := out2
        simp only [h2] at h
        injection h with h3
        have := ih hwf2 h2
        rw [← h3]
        exact this

theorem updateRecord_draft_none_eq {fuel : Nat} {store : Store} {freshId recordId : String}
    {upd : PartialFields} {record : StatefulRecord}
    (h : getStatefulRecordById fuel store recordId true false = some record)
    (hs : record.status = "draft")
    (hraw : findById store record.id = none) :
    updateRecord fuel store freshId recordId upd = .error (.notFound record.id) := by
  unfold updateRecord
  rw [h]
  simp only [hs, hraw]
  simp

theorem updateRecord_changed_cid_none_eq {fuel : Nat} {store : Store}
    {freshId recordId : String} {upd : PartialFields} {record : StatefulRecord}
    (h : getStatefulRecordById fuel store recordId true false = some record)
    (hs : record.status = "changed")
    (hcid : record.changedRecordId = none) :
    updateRecord fuel store freshId recordId upd = .error (.notFound recordId) := by
  unfold updateRecord
  rw [h]
  simp only [hs, hcid]
  simp

theorem updateRecord_changed_raw_none_eq {fuel : Nat} {store : Store}
    {freshId recordId cid : String} {upd : PartialFields} {record : StatefulRecord}
    (h : getStatefulRecordById fuel store recordId true false = some record)
    (hs : record.status = "changed")
    (hcid : record.changedRecordId = some cid)
    (hraw : findById store cid = none) :
    updateRecord fuel store freshId recordId upd = .error (.notFound cid) := by
  unfold updateRecord
  rw [h]
  simp only [hs, hcid, hraw]
  simp

theorem deleteRecord_changed_cid_none_eq {fuel : Nat} {store : Store} {recordId : String}
    {record : StatefulRecord}
    (h : getStatefulRecordById fuel store recordId true false = some record)
    (hs : record.status = "changed")
    (hcid : record.changedRecordId = none) :
    deleteRecord fuel store recordId = .error (.notFound recordId) := by
  unfold deleteRecord
  rw [h]
  simp only [hs, hcid]
  simp

/-! ### Claim theorems -/

/-- The store of one published record used for the C6 evaluation. -/
def claim6Store : Store :=
  [{ id := "r1", createdTime := "",
     fields := { state := "published", related := none, user := [("Title", "Hello")] } }]

/-- The store after deleting that record. -/
def claim6StoreAfter : Store :=
  [{ id := "r1", createdTime := "",
     fields := { state := "published-deleted", related := none, user := [("Title", "Hello")] } }]

/-- C6: deleting a published record is claimed to set `published-to-be-deleted`
and keep the row visible in production.  The code instead writes the literal
`published-deleted`, a status outside the client's declared vocabulary: the
row then disappears from production single-record and bulk reads and can no
longer be published, contradicting both the claim and the client's own
documentation. -/
theorem claim6_delete_published_writes_unrecognized_status :
    deleteRecord 2 claim6Store "r1" = Except.ok claim6StoreAfter
    ∧ (∃ raw, findById claim6StoreAfter "r1" = some raw
        ∧ raw.fields.state = "published-deleted"
        ∧ raw.fields.state ≠ "published-to-be-deleted")
    ∧ getStatefulRecordById 2 claim6StoreAfter "r1" false false = none
    ∧ getStatefulRecordsForTable claim6StoreAfter false false = []
    ∧ publishOne 2 claim6StoreAfter "r1" = Except.error (ApiError.notFound "r1")
    ∧ deleteDocumentDeletedIds "changed" "p1" "c1" "p1" = ["c1", "p1"] := by
  refine ⟨by decide,
    ⟨{ id := "r1", createdTime := "",
       fields := { state := "published-deleted", related := none, user := [("Title", "Hello")] } },
      by decide, by decide, by decide⟩,
    by decide, by decide, by decide, by decide⟩

/-- The store of one published record used for the C7 evaluation. -/
def claim7Store : Store :=
  [{ id := "p1", createdTime := "",
     fields := { state := "published", related := none, user := [("Name", "X")] } }]

/-- The store after deleting that record. -/
def claim7StoreAfter : Store :=
  [{ id := "p1", createdTime := "",
     fields := { state := "published-deleted", related := none, user := [("Name", "X")] } }]

/-- C7: after deleting a published record, publishing the same external id is
claimed to succeed and leave the id a miss in both modes.  Because delete
writes the unrecognized status `published-deleted`, the subsequent publish
fails with a not-found error instead of succeeding. -/
theorem claim7_delete_then_publish_fails :
    deleteRecord 2 claim7Store "p1" = Except.ok claim7StoreAfter
    ∧ publishRecords 2 claim7StoreAfter ["p1"] = Except.error (ApiError.notFound "p1")
    ∧ getStatefulRecordById 2 claim7StoreAfter "p1" true false = none
    ∧ getStatefulRecordById 2 claim7StoreAfter "p1" false false = none := by
  refine ⟨by decide, by decide, by decide, by decide⟩

/-- C5 counterexample: the claim maps the to-be-deleted state to the label
`published`, but `STATUS_MAP` maps it (code vocabulary `published-deleted`)
to `deleted`. -/
theorem claim5_counterexample :
    documentStatus "published-deleted" = "deleted"
    ∧ ("deleted" : String) ≠ "published" := by
  refine ⟨by decide, by decide⟩

/-- C5 (amended): the Status Resolver is total and never throws; a `changed`
record takes its counterpart id with its own id as shadow id and label
`modified`; `published-has-changes` keeps its own id with the shadow id from
the link and label `published`; every other record keeps its own id, with
labels draft→added, published→published, to-be-deleted→deleted (not
`published` as claimed), deleted→deleted; unknown statuses map to added. -/
theorem claim5_status_resolver_amended :
    (∀ r : AirtableRecord, r.fields.state = "changed" → relatedFirst r.fields ≠ none →
       ∃ x, relatedFirst r.fields = some x
         ∧ convertAirtableRecordToStatefulRecord r =
             some { id := x, createdTime := r.createdTime, status := "changed",
                    changedRecordId := some r.id, fields := r.fields })
  ∧ (∀ r : AirtableRecord, r.fields.state = "published-has-changes" →
       relatedFirst r.fields ≠ none →
       ∃ x, relatedFirst r.fields = some x
         ∧ convertAirtableRecordToStatefulRecord r =
             some { id := r.id, createdTime := r.createdTime,
                    status := "published-has-changes",
                    changedRecordId := some x, fields := r.fields })
  ∧ (∀ r : AirtableRecord, r.fields.state ≠ "changed" →
       r.fields.state ≠ "published-has-changes" →
       convertAirtableRecordToStatefulRecord r =
         some { id := r.id, createdTime := r.createdTime, status := r.fields.state,
                changedRecordId := none, fields := r.fields })
  ∧ documentStatus "draft" = "added"
  ∧ documentStatus "changed" = "modified"
  ∧ documentStatus "published" = "published"
  ∧ documentStatus "published-changed" = "published"
  ∧ documentStatus "published-deleted" = "deleted"
  ∧ documentStatus "deleted" = "deleted"
  ∧ (∀ status : String, (sTATUS_MAP.find? (fun kv => kv.1 == status)) = none →
       documentStatus status = "added")
  ∧ (∀ r : AirtableRecord, (convertAirtableRecordToStackbitDocument r).status =
       documentStatus r.fields.state) := by
  refine ⟨?_, ?_, ?_, by decide, by decide, by decide, by decide, by decide, by decide,
    ?_, ?_⟩
  · intro r hs hrel
    cases hx : relatedFirst r.fields with
    | none => exact absurd hx hrel
    | some x =>
      refine ⟨x, rfl, ?_⟩
      rw [convert_state_changed hs, hx]
      rfl
  · intro r hs hrel
    cases hx : relatedFirst r.fields with
    | none => exact absurd hx hrel
    | some x =>
      refine ⟨x, rfl, ?_⟩
      rw [convert_state_phc hs, hx]
      rfl
  · intro r h1 h2
    exact convert_state_other h1 h2
  · intro status hfind
    unfold documentStatus
    rw [hfind]
  · intro r
    rfl

/-- C5 witness: the amended resolver facts evaluated at concrete records. -/
theorem claim5_witness :
    (∃ x, relatedFirst (FieldSet.mk "changed" (some ["p9"]) []) = some x
      ∧ convertAirtableRecordToStatefulRecord
          { id := "c9", createdTime := "t", fields := ⟨"changed", some ["p9"], []⟩ } =
          some { id := x, createdTime := "t", status := "changed",
                 changedRecordId := some "c9", fields := ⟨"changed", some ["p9"], []⟩ } )
    ∧ documentStatus "nonsense" = "added" := by
  constructor
  · exact (claim5_status_resolver_amended.1
      { id := "c9", createdTime := "t", fields := ⟨"changed", some ["p9"], []⟩ }
      (by decide) (by decide))
  · exact (claim5_status_resolver_amended.2.2.2.2.2.2.2.2.2.1 "nonsense" (by decide))

/-- C10: the read side is well defined only when `changed` and
`published-has-changes` records carry a non-empty `Related` list: the
converter fails exactly on those records with a missing or empty link, a
non-preview read of such a `changed` record is a silent miss (failed lookup of
an undefined id) instead of a reported error, and the document conversion
likewise takes the undefined `Related![0]` as the external id. -/
theorem claim10_related_dereference_precondition :
    (∀ r : AirtableRecord,
       convertAirtableRecordToStatefulRecord r = none ↔
         ((r.fields.state = "changed" ∨ r.fields.state = "published-has-changes")
           ∧ relatedFirst r.fields = none))
  ∧ (∀ (store : Store) (recordId : String) (r : AirtableRecord) (fuel : Nat),
       findById store recordId = some r → r.fields.state = "changed" →
       relatedFirst r.fields = none →
       getStatefulRecordById (fuel + 1) store recordId false false = none)
  ∧ (∀ r : AirtableRecord, r.fields.state = "changed" →
       (convertAirtableRecordToStackbitDocument r).id = relatedFirst r.fields) := by
  refine ⟨?_, ?_, ?_⟩
  · intro r
    by_cases h1 : r.fields.state = "changed"
    · rw [convert_state_changed h1]
      cases hx : relatedFirst r.fields <;> simp [h1, hx]
    · by_cases h2 : r.fields.state = "published-has-changes"
      · rw [convert_state_phc h2]
        cases hx : relatedFirst r.fields <;> simp [h1, h2, hx]
      · rw [convert_state_other h1 h2]
        simp [h1, h2]
  · intro store recordId r fuel hfind hs hrel
    rw [get_changed fuel false false hfind hs, if_neg (by simp), hrel]
  · intro r hs
    unfold convertAirtableRecordToStackbitDocument
    simp [hs]

/-- C10 witness: a `changed` record with an empty link list has no
conversion, and reading it in production mode is a miss. -/
theorem claim10_witness :
    convertAirtableRecordToStatefulRecord
        { id := "c1", createdTime := "", fields := ⟨"changed", some [], []⟩ } = none
    ∧ getStatefulRecordById 1
        [{ id := "c1", createdTime := "", fields := ⟨"changed", some [], []⟩ }]
        "c1" false false = none := by
  constructor
  · exact (claim10_related_dereference_precondition.1
      { id := "c1", createdTime := "", fields := ⟨"changed", some [], []⟩ }).mpr
      (by decide)
  · exact claim10_related_dereference_precondition.2.1
      [{ id := "c1", createdTime := "", fields := ⟨"changed", some [], []⟩ }]
      "c1" { id := "c1", createdTime := "", fields := ⟨"changed", some [], []⟩ } 0
      (by decide) (by decide) (by decide)

/-- C2: the single-record read branches on the stored status exactly as
specified — `draft` only in preview; `changed` returned in preview and
resolved through its link otherwise; `published` always; `published-has-changes`
resolved through its link in preview and returned otherwise;
`published-to-be-deleted` only under the flag; `deleted` always a miss — and
under the shadow-pairing invariant the recursion depth never exceeds one
(two units of fuel determine the result). -/
theorem claim2_single_read_branching
    (store : Store) (recordId : String) (r : AirtableRecord)
    (hfind : findById store recordId = some r) (preview itbd : Bool) (fuel : Nat) :
    (r.fields.state = "draft" →
       getStatefulRecordById (fuel + 1) store recordId preview itbd =
         if preview then convertAirtableRecordToStatefulRecord r else none)
  ∧ (r.fields.state = "changed" → preview = true →
       getStatefulRecordById (fuel + 1) store recordId preview itbd =
         convertAirtableRecordToStatefulRecord r)
  ∧ (wellFormed store → r.fields.state = "changed" → preview = false →
       ∃ p ∈ store, relatedFirst r.fields = some p.id
         ∧ p.fields.state = "published-has-changes"
         ∧ getStatefulRecordById (fuel + 2) store recordId preview itbd =
             convertAirtableRecordToStatefulRecord p)
  ∧ (r.fields.state = "published" →
       getStatefulRecordById (fuel + 1) store recordId preview itbd =
         convertAirtableRecordToStatefulRecord r)
  ∧ (wellFormed store → r.fields.state = "published-has-changes" → preview = true →
       ∃ c ∈ store, relatedFirst r.fields = some c.id ∧ c.fields.state = "changed"
         ∧ getStatefulRecordById (fuel + 2) store recordId preview itbd =
             convertAirtableRecordToStatefulRecord c)
  ∧ (r.fields.state = "published-has-changes" → preview = false →
       getStatefulRecordById (fuel + 1) store recordId preview itbd =
         convertAirtableRecordToStatefulRecord r)
  ∧ (r.fields.state = "published-to-be-deleted" →
       getStatefulRecordById (fuel + 1) store recordId preview itbd =
         if itbd then convertAirtableRecordToStatefulRecord r else none)
  ∧ (r.fields.state = "deleted" →
       getStatefulRecordById (fuel + 1) store recordId preview itbd = none)
  ∧ (wellFormed store →
       getStatefulRecordById (fuel + 2) store recordId preview itbd =
         getStatefulRecordById 2 store recordId preview itbd) := by
  refine ⟨?_, ?_, ?_, ?_, ?_, ?_, ?_, ?_, ?_⟩
  · intro hs
    exact get_draft fuel preview itbd hfind hs
  · intro hs hp
    subst hp
    rw [get_changed fuel true itbd hfind hs, if_pos rfl]
  · intro hwf hs hp
    subst hp
    obtain ⟨p, hpmem, hrel, hps, hpr⟩ := hwf.2.1 r (findById_eq_some hfind).1 hs
    refine ⟨p, hpmem, hrel, hps, ?_⟩
    rw [get_changed (fuel + 1) false itbd hfind hs, if_neg (by simp)]
    simp only [hrel]
    rw [get_phc fuel false false (findById_self hwf.1 hpmem) hps, if_neg (by simp)]
  · intro hs
    exact get_published fuel preview itbd hfind hs
  · intro hwf hs hp
    subst hp
    obtain ⟨c, hcmem, hrel, hcs, hcr⟩ := hwf.2.2 r (findById_eq_some hfind).1 hs
    refine ⟨c, hcmem, hrel, hcs, ?_⟩
    rw [get_phc (fuel + 1) true itbd hfind hs, if_pos rfl]
    simp only [hrel]
    rw [get_changed fuel true false (findById_self hwf.1 hcmem) hcs, if_pos rfl]
  · intro hs hp
    subst hp
    rw [get_phc fuel false itbd hfind hs, if_neg (by simp)]
  · intro hs
    exact get_ptbd fuel preview itbd hfind hs
  · intro hs
    exact get_deleted fuel preview itbd hfind hs
  · intro hwf
    exact get_fuel_stable hwf recordId preview itbd fuel

/-- A well-formed two-row store with one shadow pair, for witnesses. -/
def pairStore : Store :=
  [{ id := "p1", createdTime := "",
     fields := { state := "published-has-changes", related := some ["c1"],
                 user := [("Name", "X")] } },
   { id := "c1", createdTime := "",
     fields := { state := "changed", related := some ["p1"],
                 user := [("Name", "Y")] } }]

/-- C2 witness: on the concrete shadow pair, a preview read of the counterpart
id resolves to the shadow in one step, with stable fuel. -/
theorem claim2_witness :
    (∃ c ∈ pairStore, relatedFirst (FieldSet.mk "published-has-changes" (some ["c1"])
        [("Name", "X")]) = some c.id ∧ c.fields.state = "changed"
      ∧ getStatefulRecordById 2 pairStore "p1" true false =
          convertAirtableRecordToStatefulRecord c)
    ∧ getStatefulRecordById 7 pairStore "p1" true false =
        getStatefulRecordById 2 pairStore "p1" true false := by
  have h := claim2_single_read_branching pairStore "p1"
    { id := "p1", createdTime := "",
      fields := { state := "published-has-changes", related := some ["c1"],
                  user := [("Name", "X")] } }
    (by decide) true false 0
  constructor
  · exact h.2.2.2.2.1 (by decide) (by decide) rfl
  · have h5 := claim2_single_read_branching pairStore "p1"
      { id := "p1", createdTime := "",
        fields := { state := "published-has-changes", related := some ["c1"],
                    user := [("Name", "X")] } }
      (by decide) true false 5
    exact h5.2.2.2.2.2.2.2.2 (by decide)

/-- C9: (i) every record returned by the preview read without
`includeToBeDeleted` is in status `draft`, `changed` or `published`;
(ii) consequently `updateRecord` and `deleteRecord`, which begin with exactly
such a read, can only fail with a not-found error: their trailing
invalid-transition throws are unreachable. -/
theorem claim9_trailing_throws_unreachable :
    (∀ (fuel : Nat) (store : Store) (recordId : String) (sr : StatefulRecord),
       getStatefulRecordById fuel store recordId true false = some sr →
       sr.status = "draft" ∨ sr.status = "changed" ∨ sr.status = "published")
  ∧ (∀ (fuel : Nat) (store : Store) (freshId recordId : String) (upd : PartialFields)
       (e : ApiError),
       updateRecord fuel store freshId recordId upd = Except.error e →
       ∃ missingId, e = ApiError.notFound missingId)
  ∧ (∀ (fuel : Nat) (store : Store) (recordId : String) (e : ApiError),
       deleteRecord fuel store recordId = Except.error e →
       ∃ missingId, e = ApiError.notFound missingId) := by
  refine ⟨fun fuel store recordId sr h => get_preview_status h, ?_, ?_⟩
  · intro fuel store freshId recordId upd e h
    cases hres : getStatefulRecordById fuel store recordId true false with
    | none =>
      rw [updateRecord_resolve_none hres] at h
      injection h with h1
      exact ⟨recordId, h1.symm⟩
    | some record =>
      by_cases hs1 : record.status = "published"
      · rw [updateRecord_published_eq hres hs1] at h
        exact absurd h (by simp)
      · by_cases hs2 : record.status = "draft"
        · cases hraw : findById store record.id with
          | none =>
            rw [updateRecord_draft_none_eq hres hs2 hraw] at h
            injection h with h1
            exact ⟨record.id, h1.symm⟩
          | some raw =>
            rw [updateRecord_draft_eq hres hs2 hraw] at h
            exact absurd h (by simp)
        · by_cases hs3 : record.status = "changed"
          · cases hcid : record.changedRecordId with
            | none =>
              rw [updateRecord_changed_cid_none_eq hres hs3 hcid] at h
              injection h with h1
              exact ⟨recordId, h1.symm⟩
            | some cid =>
              cases hraw : findById store cid with
              | none =>
                rw [updateRecord_changed_raw_none_eq hres hs3 hcid hraw] at h
                injection h with h1
                exact ⟨cid, h1.symm⟩
              | some raw =>
                rw [updateRecord_changed_eq hres hs3 hcid hraw] at h
                exact absurd h (by simp)
          · rcases get_preview_status hres with hd | hc | hp
            · exact absurd hd hs2
            · exact absurd hc hs3
            · exact absurd hp hs1
  · intro fuel store recordId e h
    cases hres : getStatefulRecordById fuel store recordId true false with
    | none =>
      rw [deleteRecord_resolve_none hres] at h
      injection h with h1
      exact ⟨recordId, h1.symm⟩
    | some record =>
      by_cases hs1 : record.status = "published"
      · rw [deleteRecord_published_eq hres hs1] at h
        exact absurd h (by simp)
      · by_cases hs2 : record.status = "draft"
        · rw [deleteRecord_draft_eq hres hs2] at h
          exact absurd h (by simp)
        · by_cases hs3 : record.status = "changed"
          · cases hcid : record.changedRecordId with
            | none =>
              rw [deleteRecord_changed_cid_none_eq hres hs3 hcid] at h
              injection h with h1
              exact ⟨recordId, h1.symm⟩
            | some cid =>
              rw [deleteRecord_changed_eq hres hs3 hcid] at h
              exact absurd h (by simp)
          · rcases get_preview_status hres with hd | hc | hp
            · exact absurd hd hs2
            · exact absurd hc hs3
            · exact absurd hp hs1

/-- C9 witness: the closure and the error classification evaluated at concrete
inputs (a one-draft store, and mutations of an absent id on the empty store). -/
theorem claim9_witness :
    ("draft" = "draft" ∨ "draft" = "changed" ∨ "draft" = "published")
    ∧ (∃ missingId, ApiError.notFound "x" = ApiError.notFound missingId)
    ∧ (∃ missingId, ApiError.notFound "y" = ApiError.notFound missingId) := by
  refine ⟨?_, ?_, ?_⟩
  · exact claim9_trailing_throws_unreachable.1 1
      [{ id := "d1", createdTime := "", fields := ⟨"draft", none, []⟩ }] "d1"
      { id := "d1", createdTime := "", status := "draft", changedRecordId := none,
        fields := ⟨"draft", none, []⟩ }
      (by decide)
  · exact claim9_trailing_throws_unreachable.2.1 1 [] "f" "x" ⟨none, none, []⟩
      (ApiError.notFound "x") (by decide)
  · exact claim9_trailing_throws_unreachable.2.2 1 [] "y" (ApiError.notFound "y")
      (by decide)

/-- C1: updating a published record is copy-on-write.  A new shadow row is
created whose fields are the published record's fields merged with the edits,
with state `changed` and link back to the original; the original flips to
`published-has-changes` linking to the shadow; the operation returns the
resolved shadow (external id = original id).  Afterwards a preview read of the
external id returns the new field values while a production read still returns
the pre-edit values. -/
theorem claim1_copy_on_write
    (store : Store) (P : AirtableRecord) (freshId recordId : String)
    (upd : PartialFields) (fuel : Nat)
    (hP : findById store recordId = some P) (hPs : P.fields.state = "published")
    (hfresh : findById store freshId = none) :
    ∃ store2 cr,
      updateRecord (fuel + 1) store freshId recordId upd = Except.ok (store2, some cr)
      ∧ cr.id = recordId ∧ cr.status = "changed" ∧ cr.changedRecordId = some freshId
      ∧ cr.fields.state = "changed" ∧ cr.fields.related = some [recordId]
      ∧ cr.fields.user = mergeUser P.fields.user upd.user
      ∧ (∃ shadow, findById store2 freshId = some shadow
          ∧ shadow.fields.state = "changed" ∧ relatedFirst shadow.fields = some recordId
          ∧ shadow.fields.user = mergeUser P.fields.user upd.user)
      ∧ (∃ orig, findById store2 recordId = some orig
          ∧ orig.fields.state = "published-has-changes"
          ∧ relatedFirst orig.fields = some freshId
          ∧ orig.fields.user = P.fields.user)
      ∧ (∃ pre, getStatefulRecordById 2 store2 recordId true false = some pre
          ∧ pre.id = recordId ∧ pre.fields.user = mergeUser P.fields.user upd.user)
      ∧ (∃ prod, getStatefulRecordById 2 store2 recordId false false = some prod
          ∧ prod.id = recordId ∧ prod.fields.user = P.fields.user) := by
  have hPid : P.id = recordId := (findById_eq_some hP).2
  have hfne : freshId ≠ recordId := by
    intro he
    rw [← he] at hP
    rw [hfresh] at hP
    exact absurd hP (by simp)
  have hconv : convertAirtableRecordToStatefulRecord P =
      some { id := P.id, createdTime := P.createdTime, status := P.fields.state,
             changedRecordId := none, fields := P.fields } :=
    convert_state_other (by rw [hPs]; decide) (by rw [hPs]; decide)
  have hres : getStatefulRecordById (fuel + 1) store recordId true false =
      some { id := P.id, createdTime := P.createdTime, status := P.fields.state,
             changedRecordId := none, fields := P.fields } := by
    rw [get_published fuel true false hP hPs, hconv]
  set f : FieldSet :=
    { state := "changed", related := some [P.id], user := mergeUser P.fields.user upd.user }
    with hf
  set shadow : AirtableRecord := { id := freshId, createdTime := "", fields := f } with hsh
  set pp : PartialFields :=
    { state := some "published-has-changes", related := some [freshId], user := [] } with hpp
  set orig : AirtableRecord := { P with fields := applyUpdate P.fields pp } with horigdef
  have happly : updateRecord (fuel + 1) store freshId recordId upd =
      Except.ok (baseUpdate (store ++ [shadow]) P.id pp,
        some { id := P.id, createdTime := "", status := "changed",
               changedRecordId := some freshId, fields := f }) := by
    rw [updateRecord_published_eq hres
      (show ({ id := P.id, createdTime := P.createdTime, status := P.fields.state,
               changedRecordId := none, fields := P.fields } : StatefulRecord).status =
          "published" from hPs)]
  have horigfields : orig.fields =
      { state := "published-has-changes", related := some [freshId],
        user := P.fields.user } := by
    rw [horigdef, hpp]
    simp [applyUpdate, mergeUser]
  refine ⟨baseUpdate (store ++ [shadow]) P.id pp,
    { id := P.id, createdTime := "", status := "changed",
      changedRecordId := some freshId, fields := f }, ?_, ?_, rfl, rfl, ?_, ?_, ?_,
    ?_, ?_, ?_, ?_⟩
  · exact happly
  · exact hPid
  · rw [hf]
  · rw [hf, hPid]
  · rw [hf]
  · -- the shadow row is findable under the fresh id with the merged fields
    refine ⟨shadow, ?_, by rw [hsh, hf], by rw [hsh, hf]; simp [relatedFirst, hPid],
      by rw [hsh, hf]⟩
    rw [findById_baseUpdate, findById_append_single, hfresh]
    have hshid : shadow.id = freshId := by rw [hsh]
    rw [if_pos hshid]
    simp only [Option.map_some']
    rw [if_neg (show ¬ shadow.id = P.id by rw [hsh]; simp only; rw [hPid]; exact hfne)]
  · -- the original row now carries the counterpart state and link
    refine ⟨orig, ?_, by rw [horigfields], by rw [horigfields]; simp [relatedFirst],
      by rw [horigfields]⟩
    rw [findById_baseUpdate, findById_append_single, hP]
    simp only [Option.map_some']
    rfl
  · -- preview read resolves to the shadow (new values)
    have horigfind : findById (baseUpdate (store ++ [shadow]) P.id pp) recordId =
        some orig := by
      rw [findById_baseUpdate, findById_append_single, hP]
      simp only [Option.map_some']
      rfl
    have hshfind : findById (baseUpdate (store ++ [shadow]) P.id pp) freshId =
        some shadow := by
      rw [findById_baseUpdate, findById_append_single, hfresh]
      have hshid : shadow.id = freshId := by rw [hsh]
      rw [if_pos hshid]
      simp only [Option.map_some']
      rw [if_neg (show ¬ shadow.id = P.id by rw [hsh]; simp only; rw [hPid]; exact hfne)]
    have hconvsh : convertAirtableRecordToStatefulRecord shadow =
        some { id := P.id, createdTime := "", status := "changed",
               changedRecordId := some freshId, fields := f } := by
      rw [convert_state_changed (by rw [hsh, hf])]
      rw [hsh, hf]
      simp [relatedFirst]
    refine ⟨{ id := P.id, createdTime := "", status := "changed",
              changedRecordId := some freshId, fields := f }, ?_, hPid, by rw [hf]⟩
    rw [get_phc 1 true false horigfind (by rw [horigfields])]
    rw [if_pos rfl]
    have hrel : relatedFirst orig.fields = some freshId := by
      rw [horigfields]
      simp [relatedFirst]
    simp only [hrel]
    rw [get_changed 0 true false hshfind (by rw [hsh, hf]), if_pos rfl]
    exact hconvsh
  · -- production read still returns the original (pre-edit values)
    have horigfind : findById (baseUpdate (store ++ [shadow]) P.id pp) recordId =
        some orig := by
      rw [findById_baseUpdate, findById_append_single, hP]
      simp only [Option.map_some']
      rfl
    have hconvor : convertAirtableRecordToStatefulRecord orig =
        some { id := orig.id, createdTime := orig.createdTime,
               status := "published-has-changes",
               changedRecordId := some freshId, fields := orig.fields } := by
      rw [convert_state_phc (by rw [horigfields])]
      have hrel : relatedFirst orig.fields = some freshId := by
        rw [horigfields]
        simp [relatedFirst]
      rw [hrel]
      rfl
    refine ⟨{ id := orig.id, createdTime := orig.createdTime,
              status := "published-has-changes",
              changedRecordId := some freshId, fields := orig.fields }, ?_, ?_, ?_⟩
    · rw [get_phc 1 false false horigfind (by rw [horigfields]), if_neg (by simp)]
      exact hconvor
    · rw [horigdef]
      exact hPid
    · rw [horigfields]

/-- Concrete published store for the C1 witness. -/
def claim1WStore : Store :=
  [{ id := "p1", createdTime := "", fields := ⟨"published", none, [("Name", "X")]⟩ }]

/-- The published record of `claim1WStore`. -/
def claim1WP : AirtableRecord :=
  { id := "p1", createdTime := "", fields := ⟨"published", none, [("Name", "X")]⟩ }

/-- The caller's edit payload for the C1 witness. -/
def claim1WUpd : PartialFields := ⟨none, none, [("Name", "Y")]⟩

/-- C1 witness: copy-on-write evaluated on a concrete one-record store. -/
theorem claim1_witness :
    ∃ store2 cr,
      updateRecord (0 + 1) claim1WStore "s1" "p1" claim1WUpd = Except.ok (store2, some cr)
      ∧ cr.id = "p1" ∧ cr.status = "changed" ∧ cr.changedRecordId = some "s1"
      ∧ cr.fields.state = "changed" ∧ cr.fields.related = some ["p1"]
      ∧ cr.fields.user = mergeUser claim1WP.fields.user claim1WUpd.user
      ∧ (∃ shadow, findById store2 "s1" = some shadow
          ∧ shadow.fields.state = "changed" ∧ relatedFirst shadow.fields = some "p1"
          ∧ shadow.fields.user = mergeUser claim1WP.fields.user claim1WUpd.user)
      ∧ (∃ orig, findById store2 "p1" = some orig
          ∧ orig.fields.state = "published-has-changes"
          ∧ relatedFirst orig.fields = some "s1"
          ∧ orig.fields.user = claim1WP.fields.user)
      ∧ (∃ pre, getStatefulRecordById 2 store2 "p1" true false = some pre
          ∧ pre.id = "p1" ∧ pre.fields.user = mergeUser claim1WP.fields.user claim1WUpd.user)
      ∧ (∃ prod, getStatefulRecordById 2 store2 "p1" false false = some prod
          ∧ prod.id = "p1" ∧ prod.fields.user = claim1WP.fields.user) :=
  claim1_copy_on_write claim1WStore claim1WP "s1" "p1" claim1WUpd 0 (by decide) (by decide)
    (by decide)

/-- C3: publish, on each reference resolved with `includeToBeDeleted = true`,
performs exactly the stated transitions — `draft` to `published`; `changed`
folded wholesale into the published counterpart (fields replaced with the
shadow's, link cleared, state `published`) with the shadow then destroyed;
`published-to-be-deleted` to `deleted` with the id reported; any other
resolved status an invalid-transition error. -/
theorem claim3_publish_transitions
    (store : Store) (hwf : wellFormed store) (recordId : String) (fuel : Nat)
    (sr : StatefulRecord)
    (hres : getStatefulRecordById fuel store recordId true true = some sr) :
    (sr.status = "draft" →
       ∃ raw, findById store sr.id = some raw ∧ raw.fields.state = "draft"
         ∧ publishOne fuel store recordId =
             Except.ok (baseUpdate store sr.id ⟨some "published", none, []⟩,
               [convertAirtableRecordToStatefulRecord
                 { raw with fields := applyUpdate raw.fields ⟨some "published", none, []⟩ }],
               []))
  ∧ (sr.status = "changed" →
       ∃ c ∈ store, ∃ p ∈ store, sr.id = p.id ∧ sr.changedRecordId = some c.id
         ∧ c.fields.state = "changed" ∧ p.fields.state = "published-has-changes"
         ∧ publishOne fuel store recordId =
             Except.ok (baseDestroy
                 (baseReplace store p.id
                   { state := "published", related := some [], user := c.fields.user })
                 c.id,
               [convertAirtableRecordToStatefulRecord
                 { p with fields := { state := "published", related := some [],
                                      user := c.fields.user } }],
               []))
  ∧ (sr.status = "published-to-be-deleted" →
       ∃ raw, findById store sr.id = some raw
         ∧ raw.fields.state = "published-to-be-deleted"
         ∧ publishOne fuel store recordId =
             Except.ok (baseUpdate store sr.id ⟨some "deleted", none, []⟩, [], [sr.id]))
  ∧ (sr.status ≠ "draft" → sr.status ≠ "changed" → sr.status ≠ "published-to-be-deleted" →
       publishOne fuel store recordId =
         Except.error (ApiError.invalidTransition "publish" sr.status)) := by
  refine ⟨?_, ?_, ?_, ?_⟩
  · intro hs
    obtain ⟨raw, hfind, hrawid, hsrid, hfields, hstate2⟩ :=
      resolve_plain hwf hres (by rw [hs]; decide) (by rw [hs]; decide)
    have hraw2 : findById store sr.id = some raw := by
      rw [hsrid]
      exact hfind
    exact ⟨raw, hraw2, by rw [hstate2, hs], publishOne_draft_eq hres hs hraw2⟩
  · intro hs
    obtain ⟨c, hcmem, p, hpmem, hcs, hps, hcrel, hprel, hsid, hcid, hfields⟩ :=
      resolve_changed hwf hres hs
    have hraw2 : findById store sr.id = some p := by
      rw [hsid]
      exact findById_self hwf.1 hpmem
    have heq := publishOne_changed_eq hres hs hraw2 hcid
    refine ⟨c, hcmem, p, hpmem, hsid, hcid, hcs, hps, ?_⟩
    rw [heq, hsid, hfields]
  · intro hs
    obtain ⟨raw, hfind, hrawid, hsrid, hfields, hstate2⟩ :=
      resolve_plain hwf hres (by rw [hs]; decide) (by rw [hs]; decide)
    have hraw2 : findById store sr.id = some raw := by
      rw [hsrid]
      exact hfind
    exact ⟨raw, hraw2, by rw [hstate2, hs], publishOne_ptbd_eq hres hs⟩
  · intro h1 h2 h3
    exact publishOne_other_eq hres h1 h2 h3

/-- Concrete one-draft store for the C3 witness. -/
def claim3WStore : Store :=
  [{ id := "d1", createdTime := "", fields := ⟨"draft", none, [("T", "v")]⟩ }]

/-- C3 witness: publishing a concrete draft record flips it to published. -/
theorem claim3_witness :
    ∃ raw, findById claim3WStore "d1" = some raw
      ∧ raw.fields.state = "draft"
      ∧ publishOne 1 claim3WStore "d1" =
          Except.ok (baseUpdate claim3WStore "d1" ⟨some "published", none, []⟩,
            [convertAirtableRecordToStatefulRecord
              { raw with fields := applyUpdate raw.fields ⟨some "published", none, []⟩ }],
            []) :=
  claim3_publish_transitions claim3WStore (by decide) "d1" 1
    { id := "d1", createdTime := "", status := "draft", changedRecordId := none,
      fields := ⟨"draft", none, [("T", "v")]⟩ }
    (by decide) |>.1 rfl

/-- Concrete one-record to-be-deleted store for C8. -/
def claim8TStore : Store :=
  [{ id := "t1", createdTime := "", fields := ⟨"published-to-be-deleted", none, []⟩ }]

/-- C8 counterexample: invoked on a record currently in
`published-has-changes` (the concrete shadow pair), `updateRecord` succeeds —
it edits the resolved shadow in place — instead of failing with an
invalid-transition error; invoked on a `published-to-be-deleted` record it
fails with a not-found error, again not an invalid transition. -/
theorem claim8_counterexample :
    updateRecord 2 pairStore "f1" "p1" ⟨none, none, [("Name", "Z")]⟩ =
      Except.ok
        ([{ id := "p1", createdTime := "",
            fields := ⟨"published-has-changes", some ["c1"], [("Name", "X")]⟩ },
          { id := "c1", createdTime := "",
            fields := ⟨"changed", some ["p1"], [("Name", "Z")]⟩ }],
         some { id := "p1", createdTime := "", status := "changed",
                changedRecordId := some "c1",
                fields := ⟨"changed", some ["p1"], [("Name", "Z")]⟩ })
    ∧ deleteRecord 2 claim8TStore "t1" = Except.error (ApiError.notFound "t1") := by
  refine ⟨by decide, by decide⟩

/-- C8 (amended): update and delete begin with a preview read, so a record
currently in `published-to-be-deleted` or `deleted` is invisible to them and
they fail with a not-found error (leaving the store untouched — no write
happens before the throw), while a record currently in
`published-has-changes` is resolved to its `changed` shadow and the operation
succeeds; the invalid-transition branches are never taken on these statuses. -/
theorem claim8_amended (store : Store) (hwf : wellFormed store)
    (freshId recordId : String) (upd : PartialFields) (fuel : Nat)
    (r : AirtableRecord) (hfind : findById store recordId = some r) :
    ((r.fields.state = "published-to-be-deleted" ∨ r.fields.state = "deleted") →
       updateRecord (fuel + 1) store freshId recordId upd =
           Except.error (ApiError.notFound recordId)
         ∧ deleteRecord (fuel + 1) store recordId =
             Except.error (ApiError.notFound recordId))
  ∧ (r.fields.state = "published-has-changes" →
       (∃ out, updateRecord (fuel + 2) store freshId recordId upd = Except.ok out)
       ∧ (∃ store2, deleteRecord (fuel + 2) store recordId = Except.ok store2)) := by
  constructor
  · intro hs
    have hnone : getStatefulRecordById (fuel + 1) store recordId true false = none := by
      rcases hs with hs | hs
      · rw [get_ptbd fuel true false hfind hs]
        simp
      · exact get_deleted fuel true false hfind hs
    exact ⟨updateRecord_resolve_none hnone, deleteRecord_resolve_none hnone⟩
  · intro hs
    obtain ⟨c, hcmem, hrel, hcs, hcr⟩ := hwf.2.2 r (findById_eq_some hfind).1 hs
    have hfc : findById store c.id = some c := findById_self hwf.1 hcmem
    have hconvc : convertAirtableRecordToStatefulRecord c =
        some { id := r.id, createdTime := c.createdTime, status := "changed",
               changedRecordId := some c.id, fields := c.fields } := by
      rw [convert_state_changed hcs, hcr]
      rfl
    have hres : getStatefulRecordById (fuel + 2) store recordId true false =
        some { id := r.id, createdTime := c.createdTime, status := "changed",
               changedRecordId := some c.id, fields := c.fields } := by
      rw [get_phc (fuel + 1) true false hfind hs, if_pos rfl]
      simp only [hrel]
      rw [get_changed fuel true false hfc hcs, if_pos rfl]
      exact hconvc
    constructor
    · exact ⟨_, updateRecord_changed_eq hres rfl rfl hfc⟩
    · exact ⟨_, deleteRecord_changed_eq hres rfl rfl⟩

/-- C8 witness: the amended behaviour on the concrete shadow pair and on a
concrete to-be-deleted record. -/
theorem claim8_witness :
    ((∃ out, updateRecord (0 + 2) pairStore "f1" "p1" ⟨none, none, []⟩ = Except.ok out)
      ∧ (∃ store2, deleteRecord (0 + 2) pairStore "p1" = Except.ok store2))
    ∧ (updateRecord (0 + 1) claim8TStore "f1" "t1" ⟨none, none, []⟩ =
            Except.error (ApiError.notFound "t1")
        ∧ deleteRecord (0 + 1) claim8TStore "t1" =
              Except.error (ApiError.notFound "t1")) := by
  constructor
  · exact (claim8_amended pairStore (by decide) "f1" "p1" ⟨none, none, []⟩ 0
      { id := "p1", createdTime := "",
        fields := ⟨"published-has-changes", some ["c1"], [("Name", "X")]⟩ }
      (by decide)).2 (by decide)
  · exact (claim8_amended claim8TStore (by decide) "f1" "t1" ⟨none, none, []⟩ 0
      { id := "t1", createdTime := "", fields := ⟨"published-to-be-deleted", none, []⟩ }
      (by decide)).1 (Or.inl (by decide))

/-- C4: the shadow-pairing invariant — every `changed` record is linked to a
`published-has-changes` counterpart and vice versa, with at most one shadow
per published record — holds of a well-formed store and is preserved by
create (with the defaulted `draft` state), update (with user-field payloads
and a fresh shadow id), delete, and publish. -/
theorem claim4_shadow_pair_invariant (store : Store) (hwf : wellFormed store) :
    (∀ c ∈ store, c.fields.state = "changed" →
       ∃ p ∈ store, relatedFirst c.fields = some p.id
         ∧ p.fields.state = "published-has-changes" ∧ relatedFirst p.fields = some c.id)
  ∧ (∀ p ∈ store, p.fields.state = "published-has-changes" →
       ∃ c ∈ store, relatedFirst p.fields = some c.id
         ∧ c.fields.state = "changed" ∧ relatedFirst c.fields = some p.id)
  ∧ (∀ c1 ∈ store, ∀ c2 ∈ store, c1.fields.state = "changed" → c2.fields.state = "changed" →
       relatedFirst c1.fields = relatedFirst c2.fields → c1 = c2)
  ∧ (∀ (newId : String) (p : PartialFields), p.state = none → findById store newId = none →
       wellFormed (createRecord store newId p).1)
  ∧ (∀ (fuel : Nat) (freshId recordId : String) (upd : PartialFields)
       (res : Store × Option StatefulRecord), upd.state = none → upd.related = none →
       findById store freshId = none →
       updateRecord fuel store freshId recordId upd = Except.ok res → wellFormed res.1)
  ∧ (∀ (fuel : Nat) (recordId : String) (store2 : Store),
       deleteRecord fuel store recordId = Except.ok store2 → wellFormed store2)
  ∧ (∀ (fuel : Nat) (recordIds : List String)
       (res : Store × List (Option StatefulRecord) × List String),
       publishRecords fuel store recordIds = Except.ok res → wellFormed res.1) := by
  refine ⟨hwf.2.1, hwf.2.2, ?_, ?_, ?_, ?_, ?_⟩
  · intro c1 hc1 c2 hc2 hs1 hs2 hrel
    obtain ⟨p1, hp1, hrel1, hps1, hpr1⟩ := hwf.2.1 c1 hc1 hs1
    obtain ⟨p2, hp2, hrel2, hps2, hpr2⟩ := hwf.2.1 c2 hc2 hs2
    have hpid : p1.id = p2.id := by
      rw [hrel, hrel2] at hrel1
      injection hrel1 with h
      exact h.symm
    have hp12 : p1 = p2 := mem_id_inj hwf.1 hp1 hp2 hpid
    have hcid : c1.id = c2.id := by
      rw [hp12, hpr2] at hpr1
      injection hpr1 with h
      exact h.symm
    exact mem_id_inj hwf.1 hc1 hc2 hcid
  · intro newId p hp hfresh
    exact createRecord_wf hwf hp hfresh
  · intro fuel freshId recordId upd res h1 h2 h3 h4
    exact updateRecord_ok_wf hwf h1 h2 h3 h4
  · intro fuel recordId store2 h
    exact deleteRecord_ok_wf hwf h
  · intro fuel recordIds res h
    exact publishRecords_ok_wf hwf h

/-- C4 witness: the invariant statements evaluated on the concrete shadow
pair, and preservation through a concrete create. -/
theorem claim4_witness :
    (∃ p ∈ pairStore,
        relatedFirst (AirtableRecord.mk "c1" "" ⟨"changed", some ["p1"], [("Name", "Y")]⟩).fields
          = some p.id
        ∧ p.fields.state = "published-has-changes"
        ∧ relatedFirst p.fields =
            some (AirtableRecord.mk "c1" "" ⟨"changed", some ["p1"], [("Name", "Y")]⟩).id)
    ∧ wellFormed (createRecord pairStore "n1" ⟨none, none, []⟩).1 := by
  constructor
  · exact (claim4_shadow_pair_invariant pairStore (by decide)).1
      (AirtableRecord.mk "c1" "" ⟨"changed", some ["p1"], [("Name", "Y")]⟩)
      (by decide) (by decide)
  · exact (claim4_shadow_pair_invariant pairStore (by decide)).2.2.2.1 "n1"
      ⟨none, none, []⟩ rfl (by decide)

end Multisource
